import Mathlib

/-!
# animation_5m : the spike effect (`app.js`) and the blob effect (`app1.js`)

A shallow embedding of the per-frame logic of the two effects.

* JavaScript numbers are modelled by an ordered field `α` (exact arithmetic; the rounding of
  binary64 is not modelled).  The definitions are generic in `α` and run on `ℚ`; concrete runs
  are chosen so that no comparison is decided by a rounding error.
* `Math.sqrt` and `Math.pow` with a non-integer exponent are primitives of the host
  language; they are parameters (`sqrt`, `pow`) of every definition that calls them.
* `NaN` occurs only as the initial content of `prevFrame`; it is modelled by `none`.
* Reading `spikes[i]` outside the array yields `undefined` and the following property
  access throws; a throwing frame step is modelled by the result `none`.
-/

namespace Animation5m

set_option linter.unusedSectionVars false

/-! ## three.js `Vector2` (the methods used by the two programs) -/

/-- A `THREE.Vector2` value. -/
structure Vec2 (α : Type) where
  x : α
  y : α
deriving DecidableEq, Repr

section SpikeEffect

variable {α : Type} [LinearOrderedField α]

/-- Method `Vector2.length()` : `Math.sqrt(x*x + y*y)`. -/
def Vec2.length (sqrt : α → α) (v : Vec2 α) : α :=
  sqrt (v.x * v.x + v.y * v.y)

/-- Method `Vector2.sub(v)`. -/
def Vec2.sub (a b : Vec2 α) : Vec2 α := ⟨a.x - b.x, a.y - b.y⟩

/-- Method `Vector2.add(v)`. -/
def Vec2.add (a b : Vec2 α) : Vec2 α := ⟨a.x + b.x, a.y + b.y⟩

/-- Method `Vector2.multiplyScalar(s)`. -/
def Vec2.multiplyScalar (a : Vec2 α) (s : α) : Vec2 α := ⟨a.x * s, a.y * s⟩

/-- Method `Vector2.normalize()` : `divideScalar(length() || 1)`, where `divideScalar(s)` is
`multiplyScalar(1 / s)`. -/
def Vec2.normalize (sqrt : α → α) (v : Vec2 α) : Vec2 α :=
  v.multiplyScalar (1 / (if v.length sqrt = 0 then 1 else v.length sqrt))

/-- Method `Vector2.distanceTo(v)` : `Math.sqrt(dx*dx + dy*dy)`. -/
def Vec2.distanceTo (sqrt : α → α) (a b : Vec2 α) : α :=
  sqrt ((a.x - b.x) * (a.x - b.x) + (a.y - b.y) * (a.y - b.y))

/-- Function `Math.hypot(a, b)`. -/
def hypot (sqrt : α → α) (a b : α) : α := sqrt (a * a + b * b)

/-- Function `THREE.MathUtils.lerp(x, y, t)` : `(1 - t) * x + t * y`. -/
def lerp (x y t : α) : α := (1 - t) * x + t * y

/-! ## Constants of `app.js` -/

/-- Constant `RADIUS_CSS`. -/
def RADIUS_CSS : α := 160
/-- Constant `CROSS_INNER_BAND_CSS`. -/
def CROSS_INNER_BAND_CSS : α := 30
/-- Constant `TWEEN_MS`. -/
def TWEEN_MS : α := 300
/-- Constant `SPEED_FOLLOW_MIN_CSSps`. -/
def SPEED_FOLLOW_MIN_CSSps : α := 700
/-- Constant `MAX_OUT_OFFSET_CSS`. -/
def MAX_OUT_OFFSET_CSS : α := 420
/-- Constant `MAX_SPIKES`. -/
def MAX_SPIKES : Nat := 8
/-- Constant `RETARGET_MIN_DELTA_PX_CSS`. -/
def RETARGET_MIN_DELTA_PX_CSS : α := 4
/-- Constant `RETARGET_MIN_INTERVAL_MS`. -/
def RETARGET_MIN_INTERVAL_MS : α := 16
/-- Constant `SPEED_EMA_ALPHA` (0.35). -/
def SPEED_EMA_ALPHA : α := 35 / 100

/-- The device-pixel parameters written by `onResize` : `DPR`, `uniforms.u_center.value`,
`uniforms.u_radius.value` (= `RADIUS`) and the four derived thresholds. -/
structure Params (α : Type) where
  DPR : α
  C : Vec2 α
  R : α
  CROSS_INNER_BAND : α
  SPEED_FOLLOW_MIN : α
  MAX_OUT_OFFSET : α
  RETARGET_MIN_DELTA_PX : α
deriving DecidableEq, Repr

/-- Function `onResize` : the CSS constants scaled by the device pixel ratio `DPR`; the center
(`Math.floor` of half the window size) is taken as given. -/
def onResize (DPR : α) (center : Vec2 α) : Params α where
  DPR := DPR
  C := center
  R := RADIUS_CSS * DPR
  CROSS_INNER_BAND := CROSS_INNER_BAND_CSS * DPR
  SPEED_FOLLOW_MIN := SPEED_FOLLOW_MIN_CSSps * DPR
  MAX_OUT_OFFSET := MAX_OUT_OFFSET_CSS * DPR
  RETARGET_MIN_DELTA_PX := RETARGET_MIN_DELTA_PX_CSS * DPR

/-! ## `class Spike` -/

/-- Modes `MODE_FOLLOW = 1`, `MODE_RETURN = 2`. -/
inductive Mode where
  | FOLLOW
  | RETURN
deriving DecidableEq, Repr

/-- The fields of a `Spike`. -/
structure Spike (α : Type) where
  apex : Vec2 α
  start : Vec2 α
  target : Vec2 α
  mode : Mode
  t : α
  duration : α
  lastRetargetMs : α
deriving DecidableEq, Repr

/-- Constructor `new Spike(ax, ay)`. -/
def Spike.new (ax ay : α) : Spike α where
  apex := ⟨ax, ay⟩
  start := ⟨ax, ay⟩
  target := ⟨ax, ay⟩
  mode := Mode.FOLLOW
  t := 0
  duration := TWEEN_MS / 1000
  lastRetargetMs := 0

/-- Method `Spike.retarget(tx, ty, mode, nowMs)`. -/
def Spike.retarget (s : Spike α) (tx ty : α) (mode : Mode) (nowMs : α) : Spike α :=
  { s with mode := mode, start := s.apex, target := ⟨tx, ty⟩, t := 0, lastRetargetMs := nowMs }

/-- Method `Spike.update(dt, C, R)` : the updated spike and the returned flag (`true` : finished,
to be removed). -/
def Spike.update (sqrt : α → α) (s : Spike α) (dt : α) (C : Vec2 α) (R : α) : Spike α × Bool :=
  let t1 := s.t + dt / s.duration
  let t := if t1 ≥ 1 then 1 else t1
  let k := 1 - (1 - t) ^ 3
  let apex : Vec2 α :=
    ⟨s.start.x + (s.target.x - s.start.x) * k, s.start.y + (s.target.y - s.start.y) * k⟩
  let s1 : Spike α := { s with t := t1, apex := apex }
  if s.mode = Mode.RETURN then
    let d := apex.distanceTo sqrt C
    if d ≤ R + 6 / 10 ∨ t ≥ 1 then (s1, true) else (s1, false)
  else (s1, false)

/-! ## Runtime state -/

/-- The fields of `mouse` that the frame step reads. -/
structure Mouse (α : Type) where
  devX : α
  devY : α
  valid : Bool
deriving DecidableEq, Repr

/-- The object `prevFrame`.  `devX`, `devY` (together in `pos`) and `dist` start as `NaN`
(`none`) and are written together at the end of a frame with a valid pointer sample. -/
structure PrevFrame (α : Type) where
  pos : Option (Vec2 α)
  dist : Option α
  tsMs : α
  speedEMA : α
deriving DecidableEq, Repr

/-- The module-level state of `app.js` : the spike array, `activeFollowerIndex`
(`-1` : none), `mouse`, `prevFrame` and the two reused scratch vectors. -/
structure State (α : Type) where
  spikes : List (Spike α)
  activeFollowerIndex : Int
  mouse : Mouse α
  prevFrame : PrevFrame α
  tmpV1 : Vec2 α
  tmpV2 : Vec2 α
deriving DecidableEq, Repr

/-- The state after module initialisation. -/
def State.init : State α where
  spikes := []
  activeFollowerIndex := -1
  mouse := ⟨0, 0, false⟩
  prevFrame := ⟨none, none, 0, 0⟩
  tmpV1 := ⟨0, 0⟩
  tmpV2 := ⟨0, 0⟩

/-- The array read `spikes[i]` (`none` : `undefined`). -/
def lookup (spikes : List (Spike α)) (i : Int) : Option (Spike α) :=
  if i < 0 then none else spikes[i.toNat]?

/-- Search `spikes.findIndex(x => x.mode === MODE_RETURN)`, counted from `i`. -/
def findIndexFrom : Nat → List (Spike α) → Int
  | _, [] => -1
  | i, s :: rest => if s.mode = Mode.RETURN then (i : Int) else findIndexFrom (i + 1) rest

/-- Search `spikes.findIndex(x => x.mode === MODE_RETURN)`. -/
def findIndex (spikes : List (Spike α)) : Int := findIndexFrom 0 spikes

/-! ## The reused scratch vectors

`tmpV1` and `tmpV2` are mutable objects shared by all blocks; an expression such as `dir`
is a reference to one of them, so a write through one name is seen through the other. -/

/-- A reference to one of the two scratch vectors. -/
inductive Reg where
  | tmpV1
  | tmpV2
deriving DecidableEq, Repr

/-- The current content of a scratch vector. -/
def State.reg (s : State α) : Reg → Vec2 α
  | Reg.tmpV1 => s.tmpV1
  | Reg.tmpV2 => s.tmpV2

/-- Overwrite a scratch vector. -/
def State.setReg (s : State α) (r : Reg) (v : Vec2 α) : State α :=
  match r with
  | Reg.tmpV1 => { s with tmpV1 := v }
  | Reg.tmpV2 => { s with tmpV2 := v }

/-- The retraction target computed when the active follower is released (`animate`, lines
317-319, and the `pointerleave` handler, lines 199-201):

    const v = tmpV1.copy(s.apex).sub(C);
    const dir = v.length() > 1e-4 ? v.normalize() : tmpV2.set(..fallback..);
    const edge = tmpV2.copy(C).add(dir.multiplyScalar(R));

`fallback` is the value the second branch leaves in `tmpV2`.  The receiver `tmpV2.copy(C)`
is evaluated before the argument `dir.multiplyScalar(R)`.  Returns the state (scratch
vectors updated) and `edge`. -/
def releaseEdge (sqrt : α → α) (p : Params α) (s : State α) (apex fallback : Vec2 α) :
    State α × Vec2 α :=
  let s1 := s.setReg Reg.tmpV1 (apex.sub p.C)
  let s2dir : State α × Reg :=
    if (s1.reg Reg.tmpV1).length sqrt > 1 / 10000 then
      (s1.setReg Reg.tmpV1 ((s1.reg Reg.tmpV1).normalize sqrt), Reg.tmpV1)
    else
      (s1.setReg Reg.tmpV2 fallback, Reg.tmpV2)
  let s2 := s2dir.1
  let dir := s2dir.2
  let s3 := s2.setReg Reg.tmpV2 p.C
  let s4 := s3.setReg dir ((s3.reg dir).multiplyScalar p.R)
  let s5 := s4.setReg Reg.tmpV2 ((s4.reg Reg.tmpV2).add (s4.reg dir))
  (s5, s5.reg Reg.tmpV2)

/-- Replace the spike at position `i` (the in-place mutation of `spikes[i]`). -/
def setSpike (spikes : List (Spike α)) (i : Int) (sp : Spike α) : List (Spike α) :=
  spikes.set i.toNat sp

/-! ## Event handlers -/

/-- The `pointermove` handler; `cssX = e.clientX - rect.left`, `cssY = e.clientY - rect.top`. -/
def pointermove (p : Params α) (s : State α) (rectHeight cssX cssY : α) : State α :=
  { s with mouse := ⟨cssX * p.DPR, (rectHeight - cssY) * p.DPR, true⟩ }

/-- The `pointerleave` handler; `nowMs` is the reading of `performance.now()`. -/
def pointerleave (sqrt : α → α) (p : Params α) (s : State α) (nowMs : α) : Option (State α) :=
  if s.activeFollowerIndex ≠ -1 then
    match lookup s.spikes s.activeFollowerIndex with
    | none => none
    | some sp =>
      let r := releaseEdge sqrt p s sp.apex ⟨1, 0⟩
      some { r.1 with
        spikes := setSpike s.spikes s.activeFollowerIndex
          (sp.retarget r.2.x r.2.y Mode.RETURN nowMs)
        activeFollowerIndex := -1
        mouse := { s.mouse with valid := false } }
  else
    some { s with mouse := { s.mouse with valid := false } }

/-! ## The frame step `animate` -/

/-- The follow conditions : `prevFrame.speedEMA >= SPEED_FOLLOW_MIN && radialOffset <=
MAX_OUT_OFFSET` with `radialOffset = dCurr - R`. -/
def followOk (p : Params α) (speedEMA dCurr : α) : Bool :=
  decide (speedEMA ≥ p.SPEED_FOLLOW_MIN) && decide (dCurr - p.R ≤ p.MAX_OUT_OFFSET)

/-- Lines 252-262 : the smoothed speed written to `prevFrame.speedEMA`
(`prevFrame.speedEMA || 0` is `prevFrame.speedEMA` for a number that is not `NaN`). -/
def speedEMA (sqrt : α → α) (s : State α) (nowMs : α) : α :=
  match s.prevFrame.pos with
  | some pv =>
    let dx := s.mouse.devX - pv.x
    let dy := s.mouse.devY - pv.y
    let dtFrame := max (1 / 1000) ((nowMs - s.prevFrame.tsMs) / 1000)
    let speed := sqrt (dx * dx + dy * dy) / dtFrame
    lerp s.prevFrame.speedEMA speed SPEED_EMA_ALPHA
  | none => 0

/-- Lines 265-271 : the flag `crossedOut`. -/
def crossedOut (p : Params α) (prevDist : Option α) (dCurr : α) : Bool :=
  match prevDist with
  | some d =>
    let wasInside := decide (d ≤ p.R + 1 / 1000)
    let nearInside := decide (d ≥ p.R - p.CROSS_INNER_BAND)
    let nowOutside := decide (dCurr > p.R + 1 / 1000)
    wasInside && nearInside && nowOutside
  | none => false

/-- Lines 273-288 : create the spike, push it, decide follow or retract.  The spike object
is mutated by `retarget` after the push; here it is pushed in its final form. -/
def spawn (sqrt : α → α) (p : Params α) (s : State α) (dCurr nowMs : α) : State α :=
  let mx := s.mouse.devX
  let my := s.mouse.devY
  -- const dir = tmpV2.set(mx - C.x, my - C.y).normalize();
  let s1 := s.setReg Reg.tmpV2 ((Vec2.mk (mx - p.C.x) (my - p.C.y)).normalize sqrt)
  -- const start = tmpV1.copy(C).add(dir.clone().multiplyScalar(R * 0.80));
  let s2 := s1.setReg Reg.tmpV1 (p.C.add ((s1.reg Reg.tmpV2).multiplyScalar (p.R * (80 / 100))))
  let sp := Spike.new (s2.reg Reg.tmpV1).x (s2.reg Reg.tmpV1).y
  if followOk p s.prevFrame.speedEMA dCurr then
    { s2 with
      spikes := s2.spikes ++ [sp.retarget mx my Mode.FOLLOW nowMs]
      activeFollowerIndex := ((s2.spikes ++ [sp]).length : Int) - 1 }
  else
    -- const edge = tmpV1.copy(C).add(dir.multiplyScalar(R));
    let s3 := s2.setReg Reg.tmpV1 p.C
    let s4 := s3.setReg Reg.tmpV2 ((s3.reg Reg.tmpV2).multiplyScalar p.R)
    let s5 := s4.setReg Reg.tmpV1 ((s4.reg Reg.tmpV1).add (s4.reg Reg.tmpV2))
    { s5 with
      spikes := s5.spikes ++ [sp.retarget (s5.reg Reg.tmpV1).x (s5.reg Reg.tmpV1).y Mode.RETURN nowMs]
      activeFollowerIndex := -1 }

/-- Lines 291-297 : capacity enforcement. -/
def evict (s : State α) : State α :=
  if s.spikes.length > MAX_SPIKES then
    let idx := if findIndex s.spikes = -1 then 0 else findIndex s.spikes
    { s with
      activeFollowerIndex := if idx = s.activeFollowerIndex then -1 else s.activeFollowerIndex
      spikes := s.spikes.eraseIdx idx.toNat }
  else s

/-- Lines 301-323 : the active follower is retargeted (throttled) or released.  `none` :
`spikes[activeFollowerIndex]` is `undefined` and the property access throws. -/
def follow (sqrt : α → α) (p : Params α) (s : State α) (dCurr nowMs : α) : Option (State α) :=
  if s.activeFollowerIndex ≠ -1 then
    match lookup s.spikes s.activeFollowerIndex with
    | none => none
    | some sp =>
      let mx := s.mouse.devX
      let my := s.mouse.devY
      if followOk p s.prevFrame.speedEMA dCurr then
        let movedEnough :=
          decide (hypot sqrt (mx - sp.target.x) (my - sp.target.y) ≥ p.RETARGET_MIN_DELTA_PX)
        let intervalOk := decide (nowMs - sp.lastRetargetMs ≥ RETARGET_MIN_INTERVAL_MS)
        if movedEnough && intervalOk then
          some { s with
            spikes := setSpike s.spikes s.activeFollowerIndex (sp.retarget mx my Mode.FOLLOW nowMs) }
        else some s
      else
        let r := releaseEdge sqrt p s sp.apex ((Vec2.mk (mx - p.C.x) (my - p.C.y)).normalize sqrt)
        some { r.1 with
          spikes := setSpike s.spikes s.activeFollowerIndex
            (sp.retarget r.2.x r.2.y Mode.RETURN nowMs)
          activeFollowerIndex := -1 }
  else some s

/-- Lines 272-298 : the block guarded by `crossedOut`. -/
def crossingPhase (sqrt : α → α) (p : Params α) (s : State α) (dCurr nowMs : α) : State α :=
  if crossedOut p s.prevFrame.dist dCurr then evict (spawn sqrt p s dCurr nowMs) else s

/-- Lines 248-327 : the block guarded by `mouse.valid`. -/
def pointerPhase (sqrt : α → α) (p : Params α) (s : State α) (nowMs : α) : Option (State α) :=
  let mx := s.mouse.devX
  let my := s.mouse.devY
  -- const dCurr = tmpV1.set(mx - C.x, my - C.y).length();
  let s1 := s.setReg Reg.tmpV1 ⟨mx - p.C.x, my - p.C.y⟩
  let dCurr := (s1.reg Reg.tmpV1).length sqrt
  let s2 : State α := { s1 with prevFrame := { s1.prevFrame with speedEMA := speedEMA sqrt s1 nowMs } }
  let s3 := crossingPhase sqrt p s2 dCurr nowMs
  (follow sqrt p s3 dCurr nowMs).map fun s4 =>
    { s4 with prevFrame := { s4.prevFrame with pos := some ⟨mx, my⟩, dist := some dCurr, tsMs := nowMs } }

/-- Lines 330-337 : the update loop.  `i` is the loop index, the first list the part of the
array not yet visited; a finished spike is spliced out and the index stays. -/
def updateLoop (sqrt : α → α) (dt : α) (C : Vec2 α) (R : α) :
    Nat → List (Spike α) → Int → List (Spike α) × Int
  | _, [], active => ([], active)
  | i, sp :: rest, active =>
    if (sp.update sqrt dt C R).2 then
      updateLoop sqrt dt C R i rest (if (i : Int) = active then -1 else active)
    else
      let r := updateLoop sqrt dt C R (i + 1) rest active
      ((sp.update sqrt dt C R).1 :: r.1, r.2)

/-- Lines 329-337 applied to the state. -/
def updatePhase (sqrt : α → α) (p : Params α) (dt : α) (s : State α) : State α :=
  let r := updateLoop sqrt dt p.C p.R 0 s.spikes s.activeFollowerIndex
  { s with spikes := r.1, activeFollowerIndex := r.2 }

/-- The frame step `animate`; `delta` is the reading of `clock.getDelta()` and `nowMs` the
reading of `performance.now()`.  `none` : the step throws. -/
def animate (sqrt : α → α) (p : Params α) (s : State α) (delta nowMs : α) : Option (State α) :=
  let dt := min (33 / 1000) delta
  (if s.mouse.valid then pointerPhase sqrt p s nowMs else some s).map (updatePhase sqrt p dt)

/-- Uniform `uniforms.u_spikeCount.value` after a frame : `Math.min(spikes.length, MAX_SPIKES)`. -/
def u_spikeCount (s : State α) : Nat := min s.spikes.length MAX_SPIKES

/-! ## Runs -/

/-- The events that drive the effect. -/
inductive Event (α : Type) where
  | pointermove (rectHeight cssX cssY : α)
  | pointerleave (nowMs : α)
  | frame (delta nowMs : α)
deriving DecidableEq, Repr

/-- One event applied to a state. -/
def step (sqrt : α → α) (p : Params α) (s : State α) : Event α → Option (State α)
  | Event.pointermove h x y => some (pointermove p s h x y)
  | Event.pointerleave nowMs => pointerleave sqrt p s nowMs
  | Event.frame delta nowMs => animate sqrt p s delta nowMs

/-- A sequence of events applied from a state. -/
def run (sqrt : α → α) (p : Params α) : State α → List (Event α) → Option (State α)
  | s, [] => some s
  | s, e :: es => (step sqrt p s e).bind fun s1 => run sqrt p s1 es

/-- The states reachable from the initial state. -/
inductive Reachable (sqrt : α → α) (p : Params α) : State α → Prop where
  | init : Reachable sqrt p State.init
  | step (s s1 : State α) (e : Event α) :
      Reachable sqrt p s → step sqrt p s e = some s1 → Reachable sqrt p s1

/-- The designation invariant, relative to a loop offset `i` (the number of spikes already
visited and kept): no designation, or a designation past the end of the array, or the
designation of the last spike, which is then in FOLLOW mode. -/
def OffInv (i : Nat) (l : List (Spike α)) (a : Int) : Prop :=
  a = -1 ∨ (i : Int) + l.length ≤ a ∨
    (a + 1 = (i : Int) + l.length ∧ ∃ sp, l.getLast? = some sp ∧ sp.mode = Mode.FOLLOW)

end SpikeEffect

/-! ## The blob effect (`app1.js`) -/

namespace Blob

section Model

variable {α : Type} [LinearOrderedField α]

/-- Method `Vector2.lerp(v, alpha)` : `this.x += (v.x - this.x) * alpha`, likewise `y`. -/
def lerpVec (a v : Vec2 α) (alpha : α) : Vec2 α :=
  ⟨a.x + (v.x - a.x) * alpha, a.y + (v.y - a.y) * alpha⟩

/-- Function `THREE.MathUtils.clamp(value, min, max)` : `Math.max(min, Math.min(max, value))`. -/
def clamp (value lo hi : α) : α := max lo (min hi value)

/-- The module-level state of `app1.js` read by the smoothing and decay logic;
`animate_t` is the property `animate._t` (`none` : `undefined`). -/
structure State (α : Type) where
  followCenter : Vec2 α
  targetCenter : Vec2 α
  mousePower : α
  lastMoveT : α
  mouseOnPlane : Bool
  animate_t : Option α
  uTime : α
deriving DecidableEq, Repr

/-- The state after module initialisation. -/
def State.init : State α where
  followCenter := ⟨0, 0⟩
  targetCenter := ⟨0, 0⟩
  mousePower := 0
  lastMoveT := 0
  mouseOnPlane := false
  animate_t := none
  uTime := 0

/-- Function `boost(v)`. -/
def boost (s : State α) (v : α) : State α :=
  { s with mousePower := min 1 (max s.mousePower v) }

/-- The `pointermove` handler; `hit` is the intersection of the pointer ray with the plane
`z = 0` (`none` : no intersection) and `nowPerf` the reading of `performance.now()`. -/
def pointermove (sqrt : α → α) (s : State α) (hit : Option (Vec2 α)) (nowPerf : α) : State α :=
  match hit with
  | some pt =>
    let s1 : State α := { s with targetCenter := pt, mouseOnPlane := true }
    let delta := (pt.sub s1.followCenter).length sqrt
    { boost s1 (clamp (25 / 100 + delta * (6 / 10)) (25 / 100) 1) with lastMoveT := nowPerf }
  | none => { s with mouseOnPlane := false }

/-- The `pointerleave` handler. -/
def pointerleave (s : State α) : State α := { s with mouseOnPlane := false }

/-- The `pointerdown` handler. -/
def pointerdown (s : State α) : State α := boost s (9 / 10)

/-- The `pointerup` handler. -/
def pointerup (s : State α) : State α := boost s (5 / 10)

/-- Frame duration `const dt = (t - (animate._t || t)) / 1000 || 0` : `animate._t || t` is `t` when
`animate._t` is `undefined` or `0`; the final `|| 0` turns only `0` and `NaN` into `0`. -/
def frameDt (animate_t : Option α) (t : α) : α :=
  (t - (match animate_t with
        | some t0 => if t0 = 0 then t else t0
        | none => t)) / 1000

/-- Line 276 : the decay rate in effect, `mouseOnPlane && noMoveFor < 140 ? 0.93 : 0.84` with
`noMoveFor = performance.now() - lastMoveT`. -/
def decay (s : State α) (nowPerf : α) : α :=
  if s.mouseOnPlane && decide (nowPerf - s.lastMoveT < 140) then 93 / 100 else 84 / 100

/-- The body of `animate` after `dt` is known : center easing, power decay, clock. -/
def animateDt (pow : α → α → α) (s : State α) (dt nowPerf : α) : State α :=
  let k := 1 - pow (25 / 10000) dt
  let noMoveFor := nowPerf - s.lastMoveT
  let decay : α := if s.mouseOnPlane && decide (noMoveFor < 140) then 93 / 100 else 84 / 100
  { s with
    followCenter := lerpVec s.followCenter s.targetCenter k
    mousePower := s.mousePower * pow decay (max (dt * 60) 1)
    uTime := s.uTime + dt }

/-- The frame step `animate(t)`; `nowPerf` is the reading of `performance.now()`. -/
def animate (pow : α → α → α) (s : State α) (t nowPerf : α) : State α :=
  animateDt pow { s with animate_t := some t } (frameDt s.animate_t t) nowPerf

/-- The state after `n` consecutive frame steps with no event in between; the `i`-th
frame has timestamp `ts i` and clock reading `nows i`. -/
def idleFrames (pow : α → α → α) (s : State α) (ts nows : Nat → α) : Nat → State α
  | 0 => s
  | n + 1 => animate pow (idleFrames pow s ts nows n) (ts n) (nows n)

end Model

end Blob

/-! ## Exact square roots on `ℚ` for concrete runs -/

/-- Newton iteration for the integer square root. -/
def isqrtAux : Nat → Nat → Nat → Nat
  | 0, _, g => g
  | fuel + 1, n, g => if (g + n / g) / 2 < g then isqrtAux fuel n ((g + n / g) / 2) else g

/-- The integer square root by Newton iteration from `n` (the fuel `n` is never used up). -/
def isqrt (n : Nat) : Nat := if n ≤ 1 then n else isqrtAux n n n

/-- A stand-in for `Math.sqrt` on `ℚ` : exact on squares of rationals (`sqrtQ_mul_self`),
which is all the concrete runs below feed it. -/
def sqrtQ (q : ℚ) : ℚ := (isqrt q.num.toNat : ℚ) / (isqrt q.den : ℚ)

/-- A stand-in for `Math.pow` on `ℚ` at a natural-number exponent, with the underflow of the
binary64 format : the exact power, replaced by 0 when it is at most 2^-1075 (half the least
positive double), as rounding to nearest does.  Rounding of larger values is not modelled; a
fractional exponent is truncated (the runs below use natural exponents only). -/
def powQ (x y : ℚ) : ℚ :=
  if x ^ (Rat.floor y).toNat ≤ 1 / 2 ^ 1075 then 0 else x ^ (Rat.floor y).toNat

/-- The blob state after the initial call `animate(0)`, a frame at 16 ms and a
`pointerdown` (power 0.9, `animate._t` = 16, pointer not on the plane). -/
def blobPressed : Blob.State ℚ :=
  Blob.pointerdown (Blob.animate powQ (Blob.animate powQ Blob.State.init 0 0) 16 16)

/-! ## Concrete runs used below

All runs use a 2400 x 1800 window at device pixel ratio 1 (center (1200, 900), radius 160)
and a pointer that stays on the horizontal line through the center; frames are 30 ms apart
(`fr`) or 33 ms apart (`fr33`). -/

/-- The parameters after `onResize` for a 2400 x 1800 window, `DPR = 1`. -/
def P0 : Params ℚ := onResize 1 ⟨1200, 900⟩

/-- A pointer move to the device-pixel position `(x, 900)`. -/
def mv (x : ℚ) : Event ℚ := Event.pointermove 1800 x 900

/-- A frame 30 ms after the previous one, at time `nowMs`. -/
def fr (nowMs : ℚ) : Event ℚ := Event.frame (30 / 1000) nowMs

/-- The state reached by a run, or the initial state when the run throws. -/
def after (es : List (Event ℚ)) : State ℚ := (run sqrtQ P0 State.init es).getD State.init

/-- A fast crossing spawns a follower; the pointer re-enters the band and crosses again. -/
def traceTwoFollowers : List (Event ℚ) :=
  [mv 1350, fr 0, mv 1700, fr 30, mv 1350, fr 60, mv 1700, fr 90]

/-- A follower is spawned and released (pointer too far out); while it retracts, a second
crossing spawns a new follower behind it; then the retracting spike finishes. -/
def traceStaleIndex : List (Event ℚ) :=
  [mv 1350, fr 0, mv 1455, fr 30, mv 1790, fr 60, mv 1350, fr 90, mv 1370, fr 120, fr 150]

/-- Eight fast crossings in a row (each new follower supersedes the previous one, which
stays in the collection), then the pointer re-enters the band and moves out again. -/
def traceNinthCrossing : List (Event ℚ) :=
  [mv 1350, fr 0, mv 1700, fr 30, mv 1350, fr 60, mv 1700, fr 90, mv 1350, fr 120, mv 1700,
   fr 150, mv 1350, fr 180, mv 1700, fr 210, mv 1350, fr 240, mv 1700, fr 270, mv 1350, fr 300,
   mv 1700, fr 330, mv 1350, fr 360, mv 1700, fr 390, mv 1350, fr 420, mv 1700, fr 450,
   mv 1350, fr 480, mv 1700]

/-- A follower spawned by a fast crossing; the pointer has since moved to `(x, 900)`. -/
def followerThenMove (x : ℚ) : List (Event ℚ) := [mv 1350, fr 0, mv 1700, fr 30, mv x]

/-- The pointer swings across the window (the smoothed speed builds up), crosses out (a
follower is spawned), then rests on the center : the follower is retargeted to the center,
and ten frames later its apex is the center. -/
def traceToCenter : List (Event ℚ) :=
  [mv 0, fr 0, mv 2400, fr 30, mv 0, fr 60, mv 2400, fr 90, mv 0, fr 120, mv 1050, fr 150,
   mv 1780, fr 180, mv 1200, fr 210, fr 240, fr 270, fr 300, fr 330, fr 360, fr 390, fr 420,
   fr 450, fr 480]

/-- A frame 33 ms after the previous one, at time `nowMs` (progress step 0.11 : nine steps
stay below 1, ten steps pass it). -/
def fr33 (nowMs : ℚ) : Event ℚ := Event.frame (33 / 1000) nowMs

/-- With frames 33 ms apart : the pointer swings across the window seven times, enters the
band, crosses out (a follower is spawned), then rests on the center; the follower is
retargeted to the center and its progress passes 1 nine frames later.  Then the pointer
leaves (the follower is released) and nine frames pass. -/
def traceFlyAway : List (Event ℚ) :=
  [mv 0, fr33 0, mv 2400, fr33 33, mv 0, fr33 66, mv 2400, fr33 99, mv 0, fr33 132, mv 2400,
   fr33 165, mv 0, fr33 198, mv 1050, fr33 231, mv 1770, fr33 264, mv 1200, fr33 297,
   fr33 330, fr33 363, fr33 396, fr33 429, fr33 462, fr33 495, fr33 528, fr33 561, fr33 594,
   Event.pointerleave 600,
   fr33 627, fr33 660, fr33 693, fr33 726, fr33 759, fr33 792, fr33 825, fr33 858, fr33 891]

section SpikeProofs

/-! ## The stand-in square root is exact on squares -/

theorem isqrtAux_sq (k : Nat) (hk : 0 < k) : ∀ fuel g, k ≤ g → g - k ≤ fuel →
    isqrtAux fuel (k * k) g = k := by
  intro fuel
  induction fuel with
  | zero =>
    intro g h1 h2
    simp only [isqrtAux]
    omega
  | succ fuel ih =>
    intro g h1 h2
    have hg : 0 < g := lt_of_lt_of_le hk h1
    have hA : k ≤ (g + k * k / g) / 2 := by
      have h3 : 2 * k - g ≤ k * k / g := by
        rw [Nat.le_div_iff_mul_le hg]
        by_cases h4 : g ≤ 2 * k
        · zify [h4]
          nlinarith [sq_nonneg ((k : Int) - g)]
        · have : 2 * k - g = 0 := by omega
          rw [this]; simp
      omega
    rw [isqrtAux]
    by_cases h5 : (g + k * k / g) / 2 < g
    · rw [if_pos h5]
      exact ih _ hA (by omega)
    · rw [if_neg h5]
      by_contra hne
      have hlt : k < g := lt_of_le_of_ne h1 (Ne.symm hne)
      have h6 : k * k / g < g := by
        rw [Nat.div_lt_iff_lt_mul hg]
        nlinarith
      omega

theorem isqrt_sq (k : Nat) : isqrt (k * k) = k := by
  unfold isqrt
  by_cases h : k * k ≤ 1
  · rw [if_pos h]
    rcases Nat.eq_zero_or_pos k with h0 | h0
    · subst h0; rfl
    · nlinarith
  · rw [if_neg h]
    have hk : 0 < k := by
      rcases Nat.eq_zero_or_pos k with h0 | h0
      · subst h0; simp at h
      · exact h0
    exact isqrtAux_sq k hk _ _ (by nlinarith) (by omega)

theorem sqrtQ_mul_self (q : ℚ) (hq : 0 ≤ q) : sqrtQ (q * q) = q := by
  unfold sqrtQ
  rw [Rat.mul_self_num, Rat.mul_self_den]
  have hn : 0 ≤ q.num := Rat.num_nonneg.mpr hq
  have h1 : (q.num * q.num).toNat = q.num.toNat * q.num.toNat := by
    have h3 : q.num = (q.num.toNat : ℤ) := (Int.toNat_of_nonneg hn).symm
    rw [h3]
    norm_cast
  rw [h1, isqrt_sq, isqrt_sq]
  have h2 : ((q.num.toNat : ℕ) : ℚ) = (q.num : ℚ) := by
    have : ((q.num.toNat : ℕ) : ℤ) = q.num := Int.toNat_of_nonneg hn
    exact_mod_cast this
  rw [h2]
  exact Rat.num_div_den q

variable {α : Type} [LinearOrderedField α]

/-! ## Basic facts -/

@[simp] theorem setReg_spikes (s : State α) (r : Reg) (v : Vec2 α) :
    (s.setReg r v).spikes = s.spikes := by
  cases r <;> rfl

@[simp] theorem setReg_activeFollowerIndex (s : State α) (r : Reg) (v : Vec2 α) :
    (s.setReg r v).activeFollowerIndex = s.activeFollowerIndex := by
  cases r <;> rfl

@[simp] theorem setReg_mouse (s : State α) (r : Reg) (v : Vec2 α) :
    (s.setReg r v).mouse = s.mouse := by
  cases r <;> rfl

@[simp] theorem setReg_prevFrame (s : State α) (r : Reg) (v : Vec2 α) :
    (s.setReg r v).prevFrame = s.prevFrame := by
  cases r <;> rfl

@[simp] theorem releaseEdge_spikes (sqrt : α → α) (p : Params α) (s : State α) (a f : Vec2 α) :
    (releaseEdge sqrt p s a f).1.spikes = s.spikes := by
  unfold releaseEdge
  simp only
  split_ifs <;> simp

@[simp] theorem releaseEdge_mouse (sqrt : α → α) (p : Params α) (s : State α) (a f : Vec2 α) :
    (releaseEdge sqrt p s a f).1.mouse = s.mouse := by
  unfold releaseEdge
  simp only
  split_ifs <;> simp

@[simp] theorem releaseEdge_prevFrame (sqrt : α → α) (p : Params α) (s : State α) (a f : Vec2 α) :
    (releaseEdge sqrt p s a f).1.prevFrame = s.prevFrame := by
  unfold releaseEdge
  simp only
  split_ifs <;> simp

theorem update_mode (sqrt : α → α) (sp : Spike α) (dt : α) (C : Vec2 α) (R : α) :
    (sp.update sqrt dt C R).1.mode = sp.mode := by
  unfold Spike.update
  simp only
  split_ifs <;> rfl

theorem update_done_mode (sqrt : α → α) (sp : Spike α) (dt : α) (C : Vec2 α) (R : α)
    (h : (sp.update sqrt dt C R).2 = true) : sp.mode = Mode.RETURN := by
  by_contra hm
  simp [Spike.update, hm] at h

theorem findIndexFrom_bounds (l : List (Spike α)) (i : Nat) :
    findIndexFrom i l = -1 ∨ ((i : Int) ≤ findIndexFrom i l ∧ findIndexFrom i l < i + l.length) := by
  induction l generalizing i with
  | nil => left; rfl
  | cons sp rest ih =>
    unfold findIndexFrom
    split_ifs with h
    · right
      simp only [List.length_cons]
      constructor <;> omega
    · rcases ih (i + 1) with h1 | ⟨h1, h2⟩
      · left; exact h1
      · right
        simp only [List.length_cons]
        constructor <;> omega

theorem updateLoop_length (sqrt : α → α) (dt : α) (C : Vec2 α) (R : α) (l : List (Spike α))
    (i : Nat) (a : Int) : (updateLoop sqrt dt C R i l a).1.length ≤ l.length := by
  induction l generalizing i a with
  | nil => simp [updateLoop]
  | cons sp rest ih =>
    rw [updateLoop]
    by_cases h : (sp.update sqrt dt C R).2 = true
    · rw [if_pos h]
      exact Nat.le_succ_of_le (ih i _)
    · rw [if_neg h]
      simp only [List.length_cons]
      exact Nat.succ_le_succ (ih (i + 1) a)

theorem spawn_length (sqrt : α → α) (p : Params α) (s : State α) (dCurr nowMs : α) :
    (spawn sqrt p s dCurr nowMs).spikes.length = s.spikes.length + 1 := by
  unfold spawn
  simp only
  split_ifs <;> simp

theorem evict_length (s : State α) (h : s.spikes.length ≤ MAX_SPIKES + 1) :
    (evict s).spikes.length ≤ MAX_SPIKES := by
  by_cases h1 : s.spikes.length > MAX_SPIKES
  · rw [evict, if_pos h1]
    simp only [List.length_eraseIdx]
    have hb := findIndexFrom_bounds s.spikes 0
    have hpos : 0 < s.spikes.length := by
      unfold MAX_SPIKES at h1; omega
    have hidx : (if findIndex s.spikes = -1 then (0 : Int) else findIndex s.spikes).toNat
        < s.spikes.length := by
      unfold findIndex
      split_ifs with h2
      · simpa using hpos
      · rcases hb with hb | ⟨hb1, hb2⟩
        · exact absurd hb h2
        · omega
    rw [if_pos hidx]
    omega
  · rw [evict, if_neg h1]
    omega

theorem follow_length (sqrt : α → α) (p : Params α) (s s1 : State α) (dCurr nowMs : α)
    (h : follow sqrt p s dCurr nowMs = some s1) : s1.spikes.length = s.spikes.length := by
  unfold follow at h
  by_cases h1 : s.activeFollowerIndex ≠ -1
  · rw [if_pos h1] at h
    cases hl : lookup s.spikes s.activeFollowerIndex with
    | none => simp [hl] at h
    | some sp =>
      simp only [hl] at h
      split_ifs at h <;> (cases h; simp [setSpike])
  · rw [if_neg h1] at h
    cases h; rfl

theorem pointerleave_length (sqrt : α → α) (p : Params α) (s s1 : State α) (nowMs : α)
    (h : pointerleave sqrt p s nowMs = some s1) : s1.spikes.length = s.spikes.length := by
  unfold pointerleave at h
  by_cases h1 : s.activeFollowerIndex ≠ -1
  · rw [if_pos h1] at h
    cases hl : lookup s.spikes s.activeFollowerIndex with
    | none => simp [hl] at h
    | some sp =>
      simp only [hl] at h
      cases h; simp [setSpike]
  · rw [if_neg h1] at h
    cases h; rfl

theorem pointerPhase_length (sqrt : α → α) (p : Params α) (s s1 : State α) (nowMs : α)
    (hs : s.spikes.length ≤ MAX_SPIKES)
    (h : pointerPhase sqrt p s nowMs = some s1) : s1.spikes.length ≤ MAX_SPIKES := by
  unfold pointerPhase at h
  simp only [Option.map_eq_some'] at h
  obtain ⟨s4, h4, rfl⟩ := h
  have := follow_length sqrt p _ _ _ _ h4
  simp only
  rw [this]
  unfold crossingPhase
  split_ifs
  · apply evict_length
    rw [spawn_length]
    simpa using hs
  · simpa using hs

theorem animate_length (sqrt : α → α) (p : Params α) (s s1 : State α) (delta nowMs : α)
    (hs : s.spikes.length ≤ MAX_SPIKES)
    (h : animate sqrt p s delta nowMs = some s1) : s1.spikes.length ≤ MAX_SPIKES := by
  unfold animate at h
  simp only [Option.map_eq_some'] at h
  obtain ⟨s2, h2, rfl⟩ := h
  have h3 : s2.spikes.length ≤ MAX_SPIKES := by
    split_ifs at h2
    · exact pointerPhase_length sqrt p s s2 nowMs hs h2
    · cases h2; exact hs
  unfold updatePhase
  exact le_trans (updateLoop_length sqrt _ _ _ _ _ _) h3

theorem Reachable.run (sqrt : α → α) (p : Params α) (es : List (Event α)) (s s1 : State α)
    (hs : Reachable sqrt p s) (h : run sqrt p s es = some s1) : Reachable sqrt p s1 := by
  induction es generalizing s with
  | nil =>
    simp only [Animation5m.run, Option.some.injEq] at h
    exact h ▸ hs
  | cons e es ih =>
    simp only [Animation5m.run, Option.bind_eq_some] at h
    obtain ⟨s2, h2, h3⟩ := h
    exact ih s2 (Reachable.step s s2 e hs h2) h3

theorem reachable_after (es : List (Event ℚ))
    (h : (Animation5m.run sqrtQ P0 State.init es).isSome = true) :
    Reachable sqrtQ P0 (after es) := by
  apply Reachable.run sqrtQ P0 es State.init _ Reachable.init
  unfold after
  cases hr : Animation5m.run sqrtQ P0 State.init es with
  | none => rw [hr] at h; simp at h
  | some s => rfl

/-! ## C1 : the capacity bound -/

/-- C1 : in every state reachable from the initial (empty) collection by pointer moves,
pointer-leave events and frame steps, the collection holds at most `MAX_SPIKES` = 8 spikes;
in particular this holds at the end of each frame step, where the count written to the
renderer is the length of the collection. -/
theorem spikes_length_le_MAX_SPIKES (sqrt : α → α) (p : Params α) (s : State α)
    (h : Reachable sqrt p s) :
    s.spikes.length ≤ MAX_SPIKES ∧ MAX_SPIKES = 8 ∧ u_spikeCount s = s.spikes.length := by
  have key : s.spikes.length ≤ MAX_SPIKES := by
    induction h with
    | init => simp [State.init]
    | step s s1 e _ hstep ih =>
      cases e with
      | pointermove hgt x y =>
        simp only [step, Option.some.injEq] at hstep
        subst hstep
        exact ih
      | pointerleave nowMs =>
        simp only [step] at hstep
        rw [pointerleave_length sqrt p s s1 nowMs hstep]
        exact ih
      | frame delta nowMs =>
        simp only [step] at hstep
        exact animate_length sqrt p s s1 delta nowMs ih hstep
  exact ⟨key, rfl, by unfold u_spikeCount; exact Nat.min_eq_left key⟩

/-- The bound of C1 at the state reached by the run `traceTwoFollowers`, which holds two
spikes. -/
theorem spikes_length_le_MAX_SPIKES_witness :
    Reachable sqrtQ P0 (after traceTwoFollowers) ∧ (after traceTwoFollowers).spikes.length = 2 ∧
      (after traceTwoFollowers).spikes.length ≤ MAX_SPIKES :=
  ⟨reachable_after _ (by decide!), by decide!,
    (spikes_length_le_MAX_SPIKES sqrtQ P0 _ (reachable_after _ (by decide!))).1⟩

/-! ## C2, C3 : the active-follower designation -/

theorem OffInv.cons (i : Nat) (l : List (Spike α)) (a : Int) (x : Spike α)
    (h : OffInv (i + 1) l a) : OffInv i (x :: l) a := by
  rcases h with h | h | ⟨h1, sp, h2, h3⟩
  · exact Or.inl h
  · refine Or.inr (Or.inl ?_)
    simp only [List.length_cons]
    push_cast at h ⊢
    omega
  · refine Or.inr (Or.inr ⟨?_, sp, ?_, h3⟩)
    · simp only [List.length_cons]
      push_cast at h1 ⊢
      omega
    · cases l with
      | nil => simp at h2
      | cons y ys => rw [List.getLast?_cons_cons]; exact h2

theorem updateLoop_inv (sqrt : α → α) (dt : α) (C : Vec2 α) (R : α) (l : List (Spike α))
    (i : Nat) (a : Int) (h : OffInv i l a) :
    OffInv i (updateLoop sqrt dt C R i l a).1 (updateLoop sqrt dt C R i l a).2 := by
  induction l generalizing i a with
  | nil => simpa [updateLoop] using h
  | cons sp rest ih =>
    rw [updateLoop]
    by_cases hd : (sp.update sqrt dt C R).2 = true
    · rw [if_pos hd]
      apply ih
      have hm := update_done_mode sqrt sp dt C R hd
      rcases h with h | h | ⟨h1, x, h2, h3⟩
      · left
        subst h
        split_ifs <;> rfl
      · right; left
        simp only [List.length_cons] at h
        push_cast at h
        have hne : ¬ ((i : Int) = a) := by omega
        rw [if_neg hne]
        omega
      · cases rest with
        | nil =>
          simp only [List.getLast?_singleton, Option.some.injEq] at h2
          subst h2
          rw [hm] at h3
          exact absurd h3 (by decide)
        | cons y ys =>
          right; left
          simp only [List.length_cons] at h1 ⊢
          push_cast at h1 ⊢
          have hne : ¬ ((i : Int) = a) := by omega
          rw [if_neg hne]
          omega
    · rw [if_neg hd]
      simp only
      rcases h with h | h | ⟨h1, x, h2, h3⟩
      · exact OffInv.cons _ _ _ _ (ih (i + 1) a (Or.inl h))
      · apply OffInv.cons
        apply ih
        right; left
        simp only [List.length_cons] at h
        push_cast at h ⊢
        omega
      · cases rest with
        | nil =>
          simp only [List.getLast?_singleton, Option.some.injEq] at h2
          subst h2
          simp only [updateLoop]
          refine Or.inr (Or.inr ⟨by simpa using h1, _, List.getLast?_singleton _, ?_⟩)
          rw [update_mode]
          exact h3
        | cons y ys =>
          apply OffInv.cons
          apply ih
          refine Or.inr (Or.inr ⟨?_, x, ?_, h3⟩)
          · simp only [List.length_cons] at h1 ⊢
            push_cast at h1 ⊢
            omega
          · rw [List.getLast?_cons_cons] at h2
            exact h2

theorem spawn_inv (sqrt : α → α) (p : Params α) (s : State α) (dCurr nowMs : α) :
    OffInv 0 (spawn sqrt p s dCurr nowMs).spikes (spawn sqrt p s dCurr nowMs).activeFollowerIndex := by
  unfold spawn
  simp only
  split_ifs with h
  · refine Or.inr (Or.inr ⟨?_, _, List.getLast?_concat _, rfl⟩)
    simp
  · exact Or.inl rfl

theorem evict_inv (s : State α) (h : OffInv 0 s.spikes s.activeFollowerIndex) :
    OffInv 0 (evict s).spikes (evict s).activeFollowerIndex := by
  by_cases h1 : s.spikes.length > MAX_SPIKES
  · rw [evict, if_pos h1]
    simp only
    generalize (if findIndex s.spikes = -1 then (0 : Int) else findIndex s.spikes) = idx
    by_cases hi : idx = s.activeFollowerIndex
    · rw [if_pos hi]; exact Or.inl rfl
    · rw [if_neg hi]
      rcases h with h | h | ⟨h2, x, h3, h4⟩
      · exact Or.inl h
      · refine Or.inr (Or.inl ?_)
        have := (List.eraseIdx_sublist s.spikes idx.toNat).length_le
        push_cast at h ⊢
        omega
      · by_cases hlt : idx.toNat < s.spikes.length
        · refine Or.inr (Or.inl ?_)
          rw [List.length_eraseIdx, if_pos hlt]
          push_cast at h2 ⊢
          omega
        · rw [List.eraseIdx_of_length_le (not_lt.mp hlt)]
          exact Or.inr (Or.inr ⟨h2, x, h3, h4⟩)
  · rw [evict, if_neg h1]
    exact h

theorem getLast?_set_last (l : List (Spike α)) (a : Int) (x : Spike α)
    (h : a + 1 = (l.length : Int)) (hp : 0 < l.length) : (l.set a.toNat x).getLast? = some x := by
  rw [List.getLast?_eq_getElem?, List.length_set, List.getElem?_set]
  have h1 : a.toNat = l.length - 1 := by omega
  rw [if_pos h1, if_pos (by omega)]

theorem lookup_some_bounds (l : List (Spike α)) (a : Int) (sp : Spike α)
    (h : lookup l a = some sp) : 0 ≤ a ∧ a < l.length := by
  unfold lookup at h
  split_ifs at h with h1
  have := (List.getElem?_eq_some.mp h).1
  omega

theorem follow_inv (sqrt : α → α) (p : Params α) (s s1 : State α) (dCurr nowMs : α)
    (h : OffInv 0 s.spikes s.activeFollowerIndex)
    (hf : follow sqrt p s dCurr nowMs = some s1) : OffInv 0 s1.spikes s1.activeFollowerIndex := by
  unfold follow at hf
  by_cases h1 : s.activeFollowerIndex ≠ -1
  · rw [if_pos h1] at hf
    cases hl : lookup s.spikes s.activeFollowerIndex with
    | none => simp [hl] at hf
    | some sp =>
      simp only [hl] at hf
      have hb := lookup_some_bounds _ _ _ hl
      split_ifs at hf
      · cases hf
        simp only [setSpike]
        rcases h with h | h | ⟨h2, x, h3, h4⟩
        · exact absurd h h1
        · simp only [CharP.cast_eq_zero, zero_add] at h
          omega
        · refine Or.inr (Or.inr ⟨by simpa using h2, _, getLast?_set_last _ _ _ (by simpa using h2)
            (by omega), rfl⟩)
      · cases hf; exact h
      · cases hf; exact Or.inl rfl
  · rw [if_neg h1] at hf
    cases hf; exact h

theorem animate_inv (sqrt : α → α) (p : Params α) (s s1 : State α) (delta nowMs : α)
    (h : OffInv 0 s.spikes s.activeFollowerIndex)
    (ha : animate sqrt p s delta nowMs = some s1) : OffInv 0 s1.spikes s1.activeFollowerIndex := by
  unfold animate at ha
  simp only [Option.map_eq_some'] at ha
  obtain ⟨s2, h2, rfl⟩ := ha
  have h3 : OffInv 0 s2.spikes s2.activeFollowerIndex := by
    split_ifs at h2
    · unfold pointerPhase at h2
      simp only [Option.map_eq_some'] at h2
      obtain ⟨s4, h4, rfl⟩ := h2
      simp only
      refine follow_inv sqrt p _ _ _ _ ?_ h4
      unfold crossingPhase
      split_ifs
      · exact evict_inv _ (spawn_inv sqrt p _ _ _)
      · simpa using h
    · cases h2; exact h
  unfold updatePhase
  exact updateLoop_inv sqrt _ _ _ _ 0 _ h3

theorem reachable_inv (sqrt : α → α) (p : Params α) (s : State α) (h : Reachable sqrt p s) :
    OffInv 0 s.spikes s.activeFollowerIndex := by
  induction h with
  | init => exact Or.inl rfl
  | step s s1 e _ hstep ih =>
    cases e with
    | pointermove hgt x y =>
      simp only [step, Option.some.injEq] at hstep
      subst hstep
      exact ih
    | pointerleave nowMs =>
      simp only [step] at hstep
      unfold pointerleave at hstep
      by_cases h1 : s.activeFollowerIndex ≠ -1
      · rw [if_pos h1] at hstep
        cases hl : lookup s.spikes s.activeFollowerIndex with
        | none => simp [hl] at hstep
        | some sp =>
          simp only [hl] at hstep
          cases hstep
          exact Or.inl rfl
      · rw [if_neg h1] at hstep
        cases hstep
        exact ih
    | frame delta nowMs =>
      simp only [step] at hstep
      exact animate_inv sqrt p s s1 delta nowMs ih hstep

/-- C2, as the code has it : in every reachable state the designation `activeFollowerIndex`
is a single index that is `-1` or not below the last position of the collection, and when
it is the position of a spike, that spike is the last (most recently inserted) one and is
in FOLLOW mode; every spike at another position is in RETURN mode or in FOLLOW mode. -/
theorem active_follower_is_following (sqrt : α → α) (p : Params α) (s : State α)
    (h : Reachable sqrt p s) :
    (s.activeFollowerIndex = -1 ∨ (s.spikes.length : Int) - 1 ≤ s.activeFollowerIndex) ∧
      (∀ sp, lookup s.spikes s.activeFollowerIndex = some sp →
        sp.mode = Mode.FOLLOW ∧ s.activeFollowerIndex = (s.spikes.length : Int) - 1) ∧
      ∀ (i : Nat) (sp : Spike α), s.spikes[i]? = some sp → (i : Int) ≠ s.activeFollowerIndex →
        sp.mode = Mode.RETURN ∨ sp.mode = Mode.FOLLOW := by
  have hmode : ∀ (i : Nat) (sp : Spike α), s.spikes[i]? = some sp →
      (i : Int) ≠ s.activeFollowerIndex → sp.mode = Mode.RETURN ∨ sp.mode = Mode.FOLLOW := by
    intro i sp _ _
    cases sp.mode
    · exact Or.inr rfl
    · exact Or.inl rfl
  rcases reachable_inv sqrt p s h with h1 | h1 | ⟨h1, x, h2, h3⟩
  · refine ⟨Or.inl h1, fun sp hsp => ?_, hmode⟩
    have := lookup_some_bounds _ _ _ hsp
    omega
  · simp only [CharP.cast_eq_zero, zero_add] at h1
    refine ⟨Or.inr (by omega), fun sp hsp => ?_, hmode⟩
    have := lookup_some_bounds _ _ _ hsp
    omega
  · simp only [CharP.cast_eq_zero, zero_add] at h1
    refine ⟨Or.inr (by omega), fun sp hsp => ⟨?_, by omega⟩, hmode⟩
    unfold lookup at hsp
    split_ifs at hsp with h4
    rw [List.getLast?_eq_getElem?] at h2
    have h5 : s.activeFollowerIndex.toNat = s.spikes.length - 1 := by omega
    rw [h5, h2] at hsp
    cases hsp
    exact h3

/-- The amended C2 at the state reached by `traceTwoFollowers` : the designated spike (index
1, the last one) is in FOLLOW mode. -/
theorem active_follower_is_following_witness :
    Reachable sqrtQ P0 (after traceTwoFollowers) ∧
      (after traceTwoFollowers).activeFollowerIndex = 1 ∧
      ∀ sp, lookup (after traceTwoFollowers).spikes (after traceTwoFollowers).activeFollowerIndex
          = some sp →
        sp.mode = Mode.FOLLOW ∧
          (after traceTwoFollowers).activeFollowerIndex
            = ((after traceTwoFollowers).spikes.length : Int) - 1 :=
  ⟨reachable_after _ (by decide!), by decide!,
    (active_follower_is_following sqrtQ P0 _ (reachable_after _ (by decide!))).2.1⟩

/-- C2 fails as stated : the run `traceTwoFollowers` (pointer moves and frame steps from the
initial state) reaches a state with two spikes that are both in FOLLOW mode; the one at
index 0 is not the designated active follower (index 1). -/
theorem two_spikes_following :
    Reachable sqrtQ P0 (after traceTwoFollowers) ∧
      (after traceTwoFollowers).spikes.map Spike.mode = [Mode.FOLLOW, Mode.FOLLOW] ∧
      (after traceTwoFollowers).activeFollowerIndex = 1 :=
  ⟨reachable_after _ (by decide!), by decide!, by decide!⟩

/-- C3 fails on the code.  (a) Removal by the per-frame update : the run `traceStaleIndex`
reaches a state with a valid pointer sample in which `activeFollowerIndex` is 1 while the
collection holds one spike (the retracting spike at index 0 was spliced out and the index was
not shifted); the next frame step throws at `spikes[activeFollowerIndex]`, and so does the
pointer-leave handler.  (b) Eviction for capacity : the run `traceNinthCrossing` reaches a
state with eight spikes, all in FOLLOW mode; the crossing block (lines 272-298) applied to
it at pointer distance 500 pushes a ninth spike (designated, index 8) and evicts index 0
without shifting the designation, and the next frame step throws at `spikes[8]`. -/
theorem stale_active_index_throws :
    (Reachable sqrtQ P0 (after traceStaleIndex) ∧
      (after traceStaleIndex).activeFollowerIndex = 1 ∧
      (after traceStaleIndex).spikes.length = 1 ∧
      (after traceStaleIndex).mouse.valid = true ∧
      lookup (after traceStaleIndex).spikes (after traceStaleIndex).activeFollowerIndex = none ∧
      animate sqrtQ P0 (after traceStaleIndex) (30 / 1000) 180 = none ∧
      pointerleave sqrtQ P0 (after traceStaleIndex) 180 = none) ∧
    (Reachable sqrtQ P0 (after traceNinthCrossing) ∧
      (after traceNinthCrossing).spikes.map Spike.mode = List.replicate 8 Mode.FOLLOW ∧
      (after traceNinthCrossing).activeFollowerIndex = 7 ∧
      (evict (spawn sqrtQ P0 (after traceNinthCrossing) 500 510)).spikes.length = 8 ∧
      (evict (spawn sqrtQ P0 (after traceNinthCrossing) 500 510)).activeFollowerIndex = 8 ∧
      animate sqrtQ P0 (after traceNinthCrossing) (30 / 1000) 510 = none) :=
  ⟨⟨reachable_after _ (by decide!), by decide!, by decide!, by decide!, by decide!, by decide!,
    by decide!⟩,
   ⟨reachable_after _ (by decide!), by decide!, by decide!, by decide!, by decide!, by decide!⟩⟩

/-! ## C4 : the crossing-out trigger -/

/-- C4, as the code has it : with a recorded previous-frame distance `dPrev`, the flag
`crossedOut` is set exactly when `dPrev ≤ R + 0.001`, `dPrev ≥ R - band` and
`dCurr > R + 0.001`; when it is set the frame step pushes one new spike (then enforces the
capacity), and when it is not the collection is left as it is.  With `band = 30` the
distances `[R - 5, R + 10]` spawn a spike and `[R - 50, R + 10]` spawn none. -/
theorem crossedOut_iff (sqrt : α → α) (p : Params α) (s : State α) (dPrev dCurr nowMs : α)
    (h : s.prevFrame.dist = some dPrev) :
    (crossedOut p s.prevFrame.dist dCurr = true ↔
        dPrev ≤ p.R + 1 / 1000 ∧ dPrev ≥ p.R - p.CROSS_INNER_BAND ∧ dCurr > p.R + 1 / 1000) ∧
      (crossedOut p s.prevFrame.dist dCurr = true →
        crossingPhase sqrt p s dCurr nowMs = evict (spawn sqrt p s dCurr nowMs) ∧
        (spawn sqrt p s dCurr nowMs).spikes.length = s.spikes.length + 1) ∧
      (crossedOut p s.prevFrame.dist dCurr = false → crossingPhase sqrt p s dCurr nowMs = s) ∧
      crossedOut { p with CROSS_INNER_BAND := 30 } (some (p.R - 5)) (p.R + 10) = true ∧
      crossedOut { p with CROSS_INNER_BAND := 30 } (some (p.R - 50)) (p.R + 10) = false := by
  refine ⟨?_, ?_, ?_, ?_, ?_⟩
  · rw [h]
    simp [crossedOut, and_assoc]
  · intro hc
    exact ⟨by simp [crossingPhase, hc], spawn_length sqrt p s dCurr nowMs⟩
  · intro hc
    simp [crossingPhase, hc]
  · simp only [crossedOut, Bool.and_eq_true, decide_eq_true_eq]
    refine ⟨⟨?_, ?_⟩, ?_⟩ <;> linarith
  · simp only [crossedOut, Bool.and_eq_false_iff, decide_eq_false_iff_not, not_le]
    left; right
    linarith

/-- The amended C4 at a concrete frame : previous distance 155, current distance 170 at
radius 160. -/
theorem crossedOut_iff_witness :
    crossedOut P0 (some 155) 170 = true ∧
      crossingPhase sqrtQ P0 (after [mv 1355, fr 0, mv 1370]) 170 30
        = evict (spawn sqrtQ P0 (after [mv 1355, fr 0, mv 1370]) 170 30) :=
  ⟨by decide!,
    ((crossedOut_iff sqrtQ P0 (after [mv 1355, fr 0, mv 1370]) 155 170 30 (by decide!)).2.1
      (by decide!)).1⟩

/-- C4 fails as stated : at radius 160 and band 30, (a) the distances `[160, 160.0005]`
satisfy `dPrev ≤ R`, `dPrev ≥ R - band` and `dCurr > R` but set no `crossedOut`, and (b) the
distances `[160.0005, 170]` set `crossedOut` although `dPrev > R`. -/
theorem crossedOut_tolerance :
    ((160 : ℚ) ≤ P0.R ∧ (160 : ℚ) ≥ P0.R - P0.CROSS_INNER_BAND ∧ (160 + 1 / 2000 : ℚ) > P0.R ∧
        crossedOut P0 (some 160) (160 + 1 / 2000) = false) ∧
      (¬ ((160 + 1 / 2000 : ℚ) ≤ P0.R) ∧ crossedOut P0 (some (160 + 1 / 2000)) 170 = true) := by
  decide!

/-! ## C5 : throttled retargeting -/

/-- C5, as the code has it : when the designated follower `sp` exists and the follow
conditions hold, the retarget phase retargets it to the pointer position (start := apex,
target := pointer, progress := 0, last-retarget time := now) if the displacement of the
pointer from its target is at least `RETARGET_MIN_DELTA_PX` and the time since its last
retarget is at least 16 ms, and otherwise leaves the whole state, hence its start, target,
progress and last-retarget time, unchanged.  With the gate at 4 px : 2 px after 5 ms gives no
retarget, 10 px after 20 ms gives one. -/
theorem retarget_gate (sqrt : α → α) (p : Params α) (s : State α) (sp : Spike α)
    (dCurr nowMs : α)
    (hl : lookup s.spikes s.activeFollowerIndex = some sp)
    (hok : followOk p s.prevFrame.speedEMA dCurr = true) :
    ((hypot sqrt (s.mouse.devX - sp.target.x) (s.mouse.devY - sp.target.y)
            ≥ p.RETARGET_MIN_DELTA_PX ∧ nowMs - sp.lastRetargetMs ≥ 16) →
        follow sqrt p s dCurr nowMs = some { s with
          spikes := setSpike s.spikes s.activeFollowerIndex
            { sp with mode := Mode.FOLLOW, start := sp.apex,
                      target := ⟨s.mouse.devX, s.mouse.devY⟩, t := 0, lastRetargetMs := nowMs } }) ∧
      (¬ (hypot sqrt (s.mouse.devX - sp.target.x) (s.mouse.devY - sp.target.y)
            ≥ p.RETARGET_MIN_DELTA_PX ∧ nowMs - sp.lastRetargetMs ≥ 16) →
        follow sqrt p s dCurr nowMs = some s) ∧
      (p.RETARGET_MIN_DELTA_PX = 4 →
        hypot sqrt (s.mouse.devX - sp.target.x) (s.mouse.devY - sp.target.y) = 2 →
        nowMs - sp.lastRetargetMs = 5 → follow sqrt p s dCurr nowMs = some s) ∧
      (p.RETARGET_MIN_DELTA_PX = 4 →
        hypot sqrt (s.mouse.devX - sp.target.x) (s.mouse.devY - sp.target.y) = 10 →
        nowMs - sp.lastRetargetMs = 20 →
        follow sqrt p s dCurr nowMs = some { s with
          spikes := setSpike s.spikes s.activeFollowerIndex
            (sp.retarget s.mouse.devX s.mouse.devY Mode.FOLLOW nowMs) }) := by
  have hne : s.activeFollowerIndex ≠ -1 := by
    have := lookup_some_bounds _ _ _ hl
    omega
  have hyes : (hypot sqrt (s.mouse.devX - sp.target.x) (s.mouse.devY - sp.target.y)
            ≥ p.RETARGET_MIN_DELTA_PX ∧ nowMs - sp.lastRetargetMs ≥ 16) →
        follow sqrt p s dCurr nowMs = some { s with
          spikes := setSpike s.spikes s.activeFollowerIndex
            (sp.retarget s.mouse.devX s.mouse.devY Mode.FOLLOW nowMs) } := by
    intro hg
    unfold follow
    rw [if_pos hne, hl]
    simp only [hok, if_true, RETARGET_MIN_INTERVAL_MS]
    rw [if_pos (by simpa using hg)]
  have hno : (¬ (hypot sqrt (s.mouse.devX - sp.target.x) (s.mouse.devY - sp.target.y)
            ≥ p.RETARGET_MIN_DELTA_PX ∧ nowMs - sp.lastRetargetMs ≥ 16)) →
        follow sqrt p s dCurr nowMs = some s := by
    intro hg
    unfold follow
    rw [if_pos hne, hl]
    simp only [hok, if_true, RETARGET_MIN_INTERVAL_MS]
    rw [if_neg (by simpa using hg)]
  refine ⟨hyes, hno, ?_, ?_⟩
  · intro h4 h2 h5
    apply hno
    rw [h4, h2]
    intro hc
    linarith [hc.1]
  · intro h4 h10 h20
    apply hyes
    rw [h4, h10, h20]
    constructor <;> norm_num

/-- The amended C5 at a concrete follower (target (1700, 900), last retarget at 30 ms) : the
pointer 10 px away, 20 ms later, retargets it. -/
theorem retarget_gate_witness :
    lookup (after (followerThenMove 1710)).spikes (after (followerThenMove 1710)).activeFollowerIndex
        = some ⟨⟨357203 / 250, 900⟩, ⟨1328, 900⟩, ⟨1700, 900⟩, Mode.FOLLOW, 1 / 10, 3 / 10, 30⟩ ∧
      follow sqrtQ P0 (after (followerThenMove 1710)) 510 50 = some { after (followerThenMove 1710) with
        spikes := [⟨⟨357203 / 250, 900⟩, ⟨357203 / 250, 900⟩, ⟨1710, 900⟩, Mode.FOLLOW, 0, 3 / 10, 50⟩] } :=
  ⟨by decide!,
    ((retarget_gate sqrtQ P0 (after (followerThenMove 1710)) _ 510 50
      (show lookup (after (followerThenMove 1710)).spikes
          (after (followerThenMove 1710)).activeFollowerIndex
        = some ⟨⟨357203 / 250, 900⟩, ⟨1328, 900⟩, ⟨1700, 900⟩, Mode.FOLLOW, 1 / 10, 3 / 10, 30⟩
        by decide!) (by decide!)).2.2.2
      (by decide!) (by decide!) (by decide!)).trans (by decide!)⟩

/-- C5 fails as stated : with gates 4 px and 16 ms, a pointer exactly 4 px from the
follower's target (which does not exceed the threshold), 20 ms after the last retarget, while
the follow conditions hold, retargets the follower in the next frame step. -/
theorem retarget_at_threshold :
    Reachable sqrtQ P0 (after (followerThenMove 1704)) ∧
      (after (followerThenMove 1704)).spikes.map (fun sp => (sp.target, sp.lastRetargetMs))
        = [(⟨1700, 900⟩, 30)] ∧
      (after (followerThenMove 1704)).activeFollowerIndex = 0 ∧
      hypot sqrtQ ((after (followerThenMove 1704)).mouse.devX - 1700)
        ((after (followerThenMove 1704)).mouse.devY - 900) = 4 ∧
      ¬ ((4 : ℚ) > P0.RETARGET_MIN_DELTA_PX) ∧
      followOk P0 (speedEMA sqrtQ (after (followerThenMove 1704)) 50) 504 = true ∧
      (animate sqrtQ P0 (after (followerThenMove 1704)) (20 / 1000) 50).map
          (fun s => s.spikes.map (fun sp => (sp.target, sp.lastRetargetMs)))
        = some [(⟨1704, 900⟩, 50)] :=
  ⟨reachable_after _ (by decide!), by decide!, by decide!, by decide!, by decide!, by decide!,
    by decide!⟩

/-! ## C6 : FOLLOW to RETURN transitions -/

theorem updateLoop_mem (sqrt : α → α) (dt : α) (C : Vec2 α) (R : α) (l : List (Spike α))
    (i : Nat) (a : Int) (x1 : Spike α) (h : x1 ∈ (updateLoop sqrt dt C R i l a).1) :
    ∃ x ∈ l, x1 = (x.update sqrt dt C R).1 := by
  induction l generalizing i a with
  | nil => simp [updateLoop] at h
  | cons sp rest ih =>
    rw [updateLoop] at h
    by_cases hd : (sp.update sqrt dt C R).2 = true
    · rw [if_pos hd] at h
      obtain ⟨x, hx, hx1⟩ := ih i _ h
      exact ⟨x, List.mem_cons_of_mem _ hx, hx1⟩
    · rw [if_neg hd] at h
      simp only [List.mem_cons] at h
      rcases h with h | h
      · exact ⟨sp, List.mem_cons_self _ _, h⟩
      · obtain ⟨x, hx, hx1⟩ := ih (i + 1) a h
        exact ⟨x, List.mem_cons_of_mem _ hx, hx1⟩

theorem spawn_prevFrame (sqrt : α → α) (p : Params α) (s : State α) (dCurr nowMs : α) :
    (spawn sqrt p s dCurr nowMs).prevFrame = s.prevFrame := by
  unfold spawn
  simp only
  split_ifs <;> simp

theorem evict_prevFrame (s : State α) : (evict s).prevFrame = s.prevFrame := by
  unfold evict
  split_ifs <;> rfl

theorem evict_mem (s : State α) (x : Spike α) (h : x ∈ (evict s).spikes) : x ∈ s.spikes := by
  by_cases h1 : s.spikes.length > MAX_SPIKES
  · rw [evict, if_pos h1] at h
    exact List.mem_of_mem_eraseIdx h
  · rw [evict, if_neg h1] at h
    exact h

theorem crossingPhase_prevFrame (sqrt : α → α) (p : Params α) (s : State α) (dCurr nowMs : α) :
    (crossingPhase sqrt p s dCurr nowMs).prevFrame = s.prevFrame := by
  unfold crossingPhase
  split_ifs
  · rw [evict_prevFrame, spawn_prevFrame]
  · rfl

theorem crossingPhase_return_mem (sqrt : α → α) (p : Params α) (s : State α) (dCurr nowMs : α)
    (hok : followOk p s.prevFrame.speedEMA dCurr = true) (x : Spike α)
    (hx : x ∈ (crossingPhase sqrt p s dCurr nowMs).spikes) (hm : x.mode = Mode.RETURN) :
    x ∈ s.spikes := by
  unfold crossingPhase at hx
  split_ifs at hx
  · have h1 := evict_mem _ _ hx
    unfold spawn at h1
    simp only [hok, if_true, setReg_spikes, List.mem_append, List.mem_singleton] at h1
    rcases h1 with h1 | h1
    · exact h1
    · rw [h1] at hm
      exact absurd hm (by simp [Spike.retarget])
  · exact hx

theorem follow_return_mem (sqrt : α → α) (p : Params α) (s s1 : State α) (dCurr nowMs : α)
    (hok : followOk p s.prevFrame.speedEMA dCurr = true)
    (hf : follow sqrt p s dCurr nowMs = some s1) (x : Spike α)
    (hx : x ∈ s1.spikes) (hm : x.mode = Mode.RETURN) : x ∈ s.spikes := by
  unfold follow at hf
  by_cases h1 : s.activeFollowerIndex ≠ -1
  · rw [if_pos h1] at hf
    cases hl : lookup s.spikes s.activeFollowerIndex with
    | none => simp [hl] at hf
    | some sp =>
      simp only [hl, hok, if_true] at hf
      split_ifs at hf
      · cases hf
        simp only [setSpike] at hx
        rcases List.mem_or_eq_of_mem_set hx with h2 | h2
        · exact h2
        · rw [h2] at hm
          exact absurd hm (by simp [Spike.retarget])
      · cases hf; exact hx
  · rw [if_neg h1] at hf
    cases hf; exact hx

theorem speedEMA_setReg (sqrt : α → α) (s : State α) (r : Reg) (v : Vec2 α) (nowMs : α) :
    speedEMA sqrt (s.setReg r v) nowMs = speedEMA sqrt s nowMs := by
  unfold speedEMA
  simp

/-- C6, as the code has it, for every state : (a) in a frame step that completes, if there is
no valid pointer
sample or the follow conditions hold (smoothed speed at least the threshold and radial
offset at most the maximum), every spike that is in RETURN mode after the step is the
per-frame update of a spike that was already in RETURN mode before it, so the step turns no
FOLLOW spike into a RETURN spike; (b) the pointer-leave handler switches the designated
follower to RETURN whatever the speed and the offset, and leaves all other spikes as they
are. -/
theorem follow_to_return_only_on_release (sqrt : α → α) (p : Params α) (s : State α) :
    (∀ (s1 : State α) (delta nowMs : α), animate sqrt p s delta nowMs = some s1 →
        (s.mouse.valid = true →
          followOk p (speedEMA sqrt s nowMs)
            ((Vec2.mk (s.mouse.devX - p.C.x) (s.mouse.devY - p.C.y)).length sqrt) = true) →
        ∀ x1 ∈ s1.spikes, x1.mode = Mode.RETURN →
          ∃ x ∈ s.spikes, x.mode = Mode.RETURN ∧
            x1 = (x.update sqrt (min (33 / 1000) delta) p.C p.R).1) ∧
      (∀ (t : α) (s2 : State α), pointerleave sqrt p s t = some s2 →
        (∀ sp, lookup s.spikes s.activeFollowerIndex = some sp →
          ∃ sp1, lookup s2.spikes s.activeFollowerIndex = some sp1 ∧ sp1.mode = Mode.RETURN) ∧
        ∀ i : Nat, (i : Int) ≠ s.activeFollowerIndex → s2.spikes[i]? = s.spikes[i]?) := by
  constructor
  · intro s1 delta nowMs ha hok x1 hx1 hm1
    unfold animate at ha
    simp only [Option.map_eq_some'] at ha
    obtain ⟨s2, h2, rfl⟩ := ha
    unfold updatePhase at hx1
    obtain ⟨x, hx, hxe⟩ := updateLoop_mem sqrt _ _ _ _ _ _ _ hx1
    have hxm : x.mode = Mode.RETURN := by
      rw [hxe, update_mode] at hm1
      exact hm1
    refine ⟨x, ?_, hxm, hxe⟩
    by_cases hv : s.mouse.valid = true
    · rw [if_pos hv] at h2
      have hok1 := hok hv
      unfold pointerPhase at h2
      simp only [Option.map_eq_some'] at h2
      obtain ⟨s4, h4, rfl⟩ := h2
      simp only at hx
      have hsr : (s.setReg Reg.tmpV1 ⟨s.mouse.devX - p.C.x, s.mouse.devY - p.C.y⟩).reg Reg.tmpV1
          = ⟨s.mouse.devX - p.C.x, s.mouse.devY - p.C.y⟩ := rfl
      rw [hsr, speedEMA_setReg] at h4
      have h5 := follow_return_mem sqrt p _ _ _ _
        (by rw [crossingPhase_prevFrame]; exact hok1) h4 x hx hxm
      have h6 := crossingPhase_return_mem sqrt p _ _ _ (by exact hok1) x h5 hxm
      simpa using h6
    · rw [if_neg hv] at h2
      cases h2
      exact hx
  · intro t s2 hp
    unfold pointerleave at hp
    by_cases h1 : s.activeFollowerIndex ≠ -1
    · rw [if_pos h1] at hp
      cases hl : lookup s.spikes s.activeFollowerIndex with
      | none => simp [hl] at hp
      | some sp =>
        simp only [hl] at hp
        cases hp
        have hb := lookup_some_bounds _ _ _ hl
        constructor
        · intro sp0 _
          refine ⟨sp.retarget (releaseEdge sqrt p s sp.apex ⟨1, 0⟩).2.x
            (releaseEdge sqrt p s sp.apex ⟨1, 0⟩).2.y Mode.RETURN t, ?_, rfl⟩
          · unfold lookup
            rw [if_neg (by omega)]
            simp only [setSpike]
            rw [List.getElem?_set, if_pos rfl, if_pos (by omega)]
        · intro i hi
          simp only [setSpike]
          rw [List.getElem?_set, if_neg (by omega)]
    · rw [if_neg h1] at hp
      cases hp
      constructor
      · intro sp hsp
        have hb := lookup_some_bounds _ _ _ hsp
        exact absurd (not_not.mp h1) (by omega)
      · intro i _; rfl

/-- The amended C6 at a concrete frame : the follower of `followerThenMove 1710` is still in
FOLLOW mode after a frame step in which the follow conditions hold. -/
theorem follow_to_return_only_on_release_witness :
    followOk P0 (speedEMA sqrtQ (after (followerThenMove 1710)) 50)
        ((Vec2.mk ((after (followerThenMove 1710)).mouse.devX - P0.C.x)
          ((after (followerThenMove 1710)).mouse.devY - P0.C.y)).length sqrtQ) = true ∧
      (after (followerThenMove 1710 ++ [Event.frame (20 / 1000) 50])).spikes.map Spike.mode
        = [Mode.FOLLOW] ∧
      ∀ x1 ∈ (after (followerThenMove 1710 ++ [Event.frame (20 / 1000) 50])).spikes,
        x1.mode = Mode.RETURN →
        ∃ x ∈ (after (followerThenMove 1710)).spikes, x.mode = Mode.RETURN ∧
          x1 = (x.update sqrtQ (min (33 / 1000) (20 / 1000)) P0.C P0.R).1 :=
  ⟨by decide!, by decide!,
    (follow_to_return_only_on_release sqrtQ P0 (after (followerThenMove 1710))).1
      (after (followerThenMove 1710 ++ [Event.frame (20 / 1000) 50])) (20 / 1000) 50
      (by decide!) (fun _ => by decide!)⟩

/-- C6 fails as stated : in the state reached by `followerThenMove 1700` the follower is in
FOLLOW mode, the smoothed speed (about 4083 px/s) is above the threshold 700 and the radial
offset 340 is within the maximum 420; the pointer-leave handler nevertheless switches the
spike to RETURN mode. -/
theorem pointerleave_releases_unconditionally :
    Reachable sqrtQ P0 (after (followerThenMove 1700)) ∧
      (after (followerThenMove 1700)).spikes.map Spike.mode = [Mode.FOLLOW] ∧
      (after (followerThenMove 1700)).prevFrame.speedEMA ≥ P0.SPEED_FOLLOW_MIN ∧
      (after (followerThenMove 1700)).prevFrame.dist = some 500 ∧
      (500 : ℚ) - P0.R ≤ P0.MAX_OUT_OFFSET ∧
      (pointerleave sqrtQ P0 (after (followerThenMove 1700)) 40).map
          (fun s => s.spikes.map Spike.mode) = some [Mode.RETURN] :=
  ⟨reachable_after _ (by decide!), by decide!, by decide!, by decide!, by decide!, by decide!⟩

/-! ## C7 : removal of a retracting spike -/

/-- When the target of a RETURN spike is within `R + 0.6` of the center, `update` reports the
spike finished exactly when the updated apex is within `R + 0.6` of the center. -/
theorem update_removes_iff (sqrt : α → α) (sp : Spike α) (dt : α) (C : Vec2 α) (R : α)
    (hm : sp.mode = Mode.RETURN) (ht : sp.target.distanceTo sqrt C ≤ R + 6 / 10) :
    (sp.update sqrt dt C R).2 = true ↔
      (sp.update sqrt dt C R).1.apex.distanceTo sqrt C ≤ R + 6 / 10 := by
  unfold Spike.update
  simp only [hm, if_true]
  by_cases h1 : sp.t + dt / sp.duration ≥ 1
  · simp only [h1, if_true, ge_iff_le, le_refl, or_true, sub_self, ne_eq, OfNat.ofNat_ne_zero,
      not_false_eq_true, zero_pow, sub_zero, mul_one, add_sub_cancel, true_iff]
    exact ht
  · simp only [h1, if_false, or_false]
    split_ifs with h2
    · simpa using h2
    · simpa using h2

/-- C7 fails on the code : the run `traceFlyAway` (frames 33 ms apart, so that no progress
value is near 1) reaches a state whose only spike is in RETURN mode with target
(384000, 288000) = 2·R·C (the scratch vector `tmpV2` is both `dir` and the receiver of
`copy(C)` when the apex is at the center) and progress still below 1; the next per-frame
update brings its progress past 1 and removes it although its updated apex is farther than
R + 0.6 = 160.6 from the center. -/
theorem update_removes_far_spike :
    Reachable sqrtQ P0 (after traceFlyAway) ∧
      (after traceFlyAway).spikes.map (fun sp => (sp.mode, sp.target, decide (sp.t < 1)))
        = [(Mode.RETURN, ⟨384000, 288000⟩, true)] ∧
      (after traceFlyAway).spikes.map
          (fun sp => ((sp.update sqrtQ (33 / 1000) P0.C P0.R).2,
            decide ((sp.update sqrtQ (33 / 1000) P0.C P0.R).1.apex.distanceTo sqrtQ P0.C
              > P0.R + 6 / 10)))
        = [(true, true)] ∧
      (after (traceFlyAway ++ [fr33 924])).spikes = [] :=
  ⟨reachable_after _ (by decide!), by decide!, by decide!, by decide!⟩

/-! ## C10 : the spike created at a crossing-out -/

/-- C10 : when `crossedOut` is set (radius `R ≥ 0`, `Math.sqrt` exact at the squared pointer
distance), let `u = (pointer - C) / dCurr`; `u` is a unit vector, and the block that creates
the spike appends one spike whose apex and easing start are `C + u·(0.80·R)`; if the smoothed
speed is at least the follow threshold and `dCurr - R` is at most the maximum offset, the
spike is in FOLLOW mode with the pointer position as target and is designated as active
follower (its index is the old length of the collection); otherwise it is in RETURN mode with
target `C + u·R` and no active follower is designated. -/
theorem spawn_spec (sqrt : α → α) (p : Params α) (s : State α) (dCurr nowMs : α)
    (hd : dCurr = (Vec2.mk (s.mouse.devX - p.C.x) (s.mouse.devY - p.C.y)).length sqrt)
    (hs : dCurr * dCurr = (s.mouse.devX - p.C.x) * (s.mouse.devX - p.C.x)
      + (s.mouse.devY - p.C.y) * (s.mouse.devY - p.C.y))
    (hR : 0 ≤ p.R)
    (hc : crossedOut p s.prevFrame.dist dCurr = true) :
    ∃ u : Vec2 α,
      u = ⟨(s.mouse.devX - p.C.x) / dCurr, (s.mouse.devY - p.C.y) / dCurr⟩ ∧
      u.x * u.x + u.y * u.y = 1 ∧
      (followOk p s.prevFrame.speedEMA dCurr = true →
        (spawn sqrt p s dCurr nowMs).spikes = s.spikes ++
          [{ apex := ⟨p.C.x + u.x * (p.R * (80 / 100)), p.C.y + u.y * (p.R * (80 / 100))⟩
             start := ⟨p.C.x + u.x * (p.R * (80 / 100)), p.C.y + u.y * (p.R * (80 / 100))⟩
             target := ⟨s.mouse.devX, s.mouse.devY⟩
             mode := Mode.FOLLOW
             t := 0
             duration := 300 / 1000
             lastRetargetMs := nowMs }] ∧
        (spawn sqrt p s dCurr nowMs).activeFollowerIndex = s.spikes.length) ∧
      (followOk p s.prevFrame.speedEMA dCurr = false →
        (spawn sqrt p s dCurr nowMs).spikes = s.spikes ++
          [{ apex := ⟨p.C.x + u.x * (p.R * (80 / 100)), p.C.y + u.y * (p.R * (80 / 100))⟩
             start := ⟨p.C.x + u.x * (p.R * (80 / 100)), p.C.y + u.y * (p.R * (80 / 100))⟩
             target := ⟨p.C.x + u.x * p.R, p.C.y + u.y * p.R⟩
             mode := Mode.RETURN
             t := 0
             duration := 300 / 1000
             lastRetargetMs := nowMs }] ∧
        (spawn sqrt p s dCurr nowMs).activeFollowerIndex = -1) := by
  have hpos : 0 < dCurr := by
    cases hp : s.prevFrame.dist with
    | none => rw [hp] at hc; simp [crossedOut] at hc
    | some d =>
      rw [hp] at hc
      simp only [crossedOut, Bool.and_eq_true, decide_eq_true_eq] at hc
      have := hc.2
      linarith
  have hne : dCurr ≠ 0 := ne_of_gt hpos
  have hlen : (Vec2.mk (s.mouse.devX - p.C.x) (s.mouse.devY - p.C.y)).length sqrt = dCurr := hd.symm
  have hnorm : (Vec2.mk (s.mouse.devX - p.C.x) (s.mouse.devY - p.C.y)).normalize sqrt
      = ⟨(s.mouse.devX - p.C.x) / dCurr, (s.mouse.devY - p.C.y) / dCurr⟩ := by
    unfold Vec2.normalize
    rw [hlen, if_neg hne]
    simp only [Vec2.multiplyScalar, one_div, div_eq_mul_inv, one_mul]
  refine ⟨_, rfl, ?_, ?_, ?_⟩
  · simp only
    field_simp
    linarith [hs]
  · intro hok
    unfold spawn
    simp only [hok, if_true, hnorm, State.setReg, State.reg, Spike.new, Spike.retarget,
      Vec2.add, Vec2.multiplyScalar, TWEEN_MS]
    simp
  · intro hok
    unfold spawn
    simp only [hok, hnorm, State.setReg, State.reg, Spike.new, Spike.retarget,
      Vec2.add, Vec2.multiplyScalar, TWEEN_MS]
    refine ⟨?_, ?_⟩
    · simp
    · simp

/-- C10 at a concrete crossing : the pointer moves from distance 155 to distance 170 on the
horizontal line through the center (radius 160); the smoothed speed (175 px/s) is below the
threshold, so the new spike retracts from `C + (128, 0)` toward `C + (160, 0)`. -/
theorem spawn_spec_witness :
    crossedOut P0 (after [mv 1355, fr 0, mv 1370]).prevFrame.dist 170 = true ∧
      ∃ u : Vec2 ℚ,
      u = ⟨((after [mv 1355, fr 0, mv 1370]).mouse.devX - P0.C.x) / 170,
            ((after [mv 1355, fr 0, mv 1370]).mouse.devY - P0.C.y) / 170⟩ ∧
      u.x * u.x + u.y * u.y = 1 ∧
      (followOk P0 (after [mv 1355, fr 0, mv 1370]).prevFrame.speedEMA 170 = true →
        (spawn sqrtQ P0 (after [mv 1355, fr 0, mv 1370]) 170 30).spikes
          = (after [mv 1355, fr 0, mv 1370]).spikes ++
          [{ apex := ⟨P0.C.x + u.x * (P0.R * (80 / 100)), P0.C.y + u.y * (P0.R * (80 / 100))⟩
             start := ⟨P0.C.x + u.x * (P0.R * (80 / 100)), P0.C.y + u.y * (P0.R * (80 / 100))⟩
             target := ⟨(after [mv 1355, fr 0, mv 1370]).mouse.devX,
                        (after [mv 1355, fr 0, mv 1370]).mouse.devY⟩
             mode := Mode.FOLLOW
             t := 0
             duration := 300 / 1000
             lastRetargetMs := 30 }] ∧
        (spawn sqrtQ P0 (after [mv 1355, fr 0, mv 1370]) 170 30).activeFollowerIndex
          = (after [mv 1355, fr 0, mv 1370]).spikes.length) ∧
      (followOk P0 (after [mv 1355, fr 0, mv 1370]).prevFrame.speedEMA 170 = false →
        (spawn sqrtQ P0 (after [mv 1355, fr 0, mv 1370]) 170 30).spikes
          = (after [mv 1355, fr 0, mv 1370]).spikes ++
          [{ apex := ⟨P0.C.x + u.x * (P0.R * (80 / 100)), P0.C.y + u.y * (P0.R * (80 / 100))⟩
             start := ⟨P0.C.x + u.x * (P0.R * (80 / 100)), P0.C.y + u.y * (P0.R * (80 / 100))⟩
             target := ⟨P0.C.x + u.x * P0.R, P0.C.y + u.y * P0.R⟩
             mode := Mode.RETURN
             t := 0
             duration := 300 / 1000
             lastRetargetMs := 30 }] ∧
        (spawn sqrtQ P0 (after [mv 1355, fr 0, mv 1370]) 170 30).activeFollowerIndex = -1) :=
  ⟨by decide!,
    spawn_spec sqrtQ P0 (after [mv 1355, fr 0, mv 1370]) 170 30 (by decide!) (by decide!)
      (by decide!) (by decide!)⟩

/-! ## C11 : the retraction target of a released follower -/

theorem normalize_unit (sqrt : α → α) (v : Vec2 α)
    (hs : v.length sqrt * v.length sqrt = v.x * v.x + v.y * v.y) (h0 : v.length sqrt ≠ 0) :
    (v.normalize sqrt).x * (v.normalize sqrt).x + (v.normalize sqrt).y * (v.normalize sqrt).y
      = 1 := by
  unfold Vec2.normalize
  rw [if_neg h0]
  simp only [Vec2.multiplyScalar]
  field_simp
  linarith [hs]

/-- When the apex is farther than 1e-4 from the center, the release target is `C + u·R` with
`u` the normalised vector from the center to the apex. -/
theorem releaseEdge_regular (sqrt : α → α) (p : Params α) (s : State α) (apex fallback : Vec2 α)
    (h : (apex.sub p.C).length sqrt > 1 / 10000) :
    (releaseEdge sqrt p s apex fallback).2
      = p.C.add (((apex.sub p.C).normalize sqrt).multiplyScalar p.R) := by
  unfold releaseEdge
  simp only [State.setReg, State.reg]
  rw [if_pos h]

/-- When the apex is within 1e-4 of the center, `dir` is `tmpV2`, which `tmpV2.copy(C)`
overwrites : the release target is `C·R + C·R`, whatever the fallback direction. -/
theorem releaseEdge_degenerate (sqrt : α → α) (p : Params α) (s : State α)
    (apex fallback : Vec2 α) (h : ¬ (apex.sub p.C).length sqrt > 1 / 10000) :
    (releaseEdge sqrt p s apex fallback).2
      = ⟨p.C.x * p.R + p.C.x * p.R, p.C.y * p.R + p.C.y * p.R⟩ := by
  unfold releaseEdge
  simp only [State.setReg, State.reg]
  rw [if_neg h]
  rfl

/-- C11 fails on the code in the degenerate case.  The run `traceToCenter` reaches a state
whose active follower has its apex at the center C = (1200, 900) (radius 160).
(a) The pointer-leave handler switches it to RETURN mode and clears the designation, but its
new target is (384000, 288000) = 2·R·C, at distance 478500 from C, not the boundary point
C + R·(1, 0) = (1360, 900).  (b) With the pointer at (1203, 900), so that the unit vector from
C toward the pointer is (1, 0), a frame step in which the follow conditions fail releases it
with the same target (384000, 288000). -/
theorem release_target_at_center :
    (Reachable sqrtQ P0 (after traceToCenter) ∧
      (lookup (after traceToCenter).spikes (after traceToCenter).activeFollowerIndex).map
          (fun sp => (sp.mode, sp.apex)) = some (Mode.FOLLOW, P0.C) ∧
      P0.C.add ((Vec2.mk 1 0).multiplyScalar P0.R) = ⟨1360, 900⟩ ∧
      Vec2.distanceTo sqrtQ ⟨384000, 288000⟩ P0.C = 478500 ∧ P0.R = 160) ∧
    (pointerleave sqrtQ P0 (after traceToCenter) 490).map
        (fun s => (s.spikes.map (fun sp => (sp.mode, sp.target)), s.activeFollowerIndex))
      = some ([(Mode.RETURN, ⟨384000, 288000⟩)], -1) ∧
    (Reachable sqrtQ P0 (after (traceToCenter ++ [mv 1203])) ∧
      (Vec2.mk ((after (traceToCenter ++ [mv 1203])).mouse.devX - P0.C.x)
          ((after (traceToCenter ++ [mv 1203])).mouse.devY - P0.C.y)).normalize sqrtQ = ⟨1, 0⟩ ∧
      followOk P0 (speedEMA sqrtQ (after (traceToCenter ++ [mv 1203])) 510) 3 = false ∧
      (animate sqrtQ P0 (after (traceToCenter ++ [mv 1203])) (30 / 1000) 510).map
          (fun s => (s.spikes.map (fun sp => (sp.mode, sp.target)), s.activeFollowerIndex))
        = some ([(Mode.RETURN, ⟨384000, 288000⟩)], -1)) :=
  ⟨⟨reachable_after _ (by decide!), by decide!, by decide!, by decide!, by decide!⟩,
    by decide!,
    ⟨reachable_after _ (by decide!), by decide!, by decide!, by decide!⟩⟩

end SpikeProofs

/-! ## The blob effect : decay of the power -/

namespace Blob

section BlobProofs

variable {α : Type} [LinearOrderedField α]

theorem animate_mousePower (pow : α → α → α) (s : State α) (t nowPerf : α) :
    (animate pow s t nowPerf).mousePower
      = s.mousePower * pow (decay s nowPerf) (max (frameDt s.animate_t t * 60) 1) := rfl

theorem decay_cases (s : State α) (nowPerf : α) :
    decay s nowPerf = 93 / 100 ∨ decay s nowPerf = 84 / 100 := by
  unfold decay
  split_ifs
  · exact Or.inl rfl
  · exact Or.inr rfl

theorem animate_mousePower_bounds (pow : α → α → α) (s : State α) (t nowPerf : α)
    (hp0 : 0 ≤ s.mousePower)
    (hpow : ∀ e : α, 1 ≤ e → (0 ≤ pow (93 / 100) e ∧ pow (93 / 100) e ≤ 1) ∧
      (0 ≤ pow (84 / 100) e ∧ pow (84 / 100) e ≤ 1)) :
    0 ≤ (animate pow s t nowPerf).mousePower ∧
      (animate pow s t nowPerf).mousePower ≤ s.mousePower := by
  rw [animate_mousePower]
  have he : (1 : α) ≤ max (frameDt s.animate_t t * 60) 1 := le_max_right _ _
  have hf : 0 ≤ pow (decay s nowPerf) (max (frameDt s.animate_t t * 60) 1) ∧
      pow (decay s nowPerf) (max (frameDt s.animate_t t * 60) 1) ≤ 1 := by
    rcases decay_cases s nowPerf with h | h <;> rw [h]
    · exact (hpow _ he).1
    · exact (hpow _ he).2
  exact ⟨mul_nonneg hp0 hf.1, mul_le_of_le_one_right hp0 hf.2⟩

/-- C8, as the code has it : for a power `p` with `0 ≤ p ≤ 1`, whenever `Math.pow` returns a
factor in [0, 1] for the two decay rates at exponents `≥ 1`, a frame step without boost yields
`p' = p · Math.pow(decay, max(dt·60, 1))` with `0 ≤ p' ≤ p`; over any run of idle frames the
power stays non-negative and never increases; `boost(v)` never lowers the power, leaves it
unchanged when `v ≤ p`, and keeps it at most 1. -/
theorem mousePower_never_increases (pow : α → α → α) (s : State α) (t nowPerf : α)
    (hp0 : 0 ≤ s.mousePower) (hp1 : s.mousePower ≤ 1)
    (hpow : ∀ e : α, 1 ≤ e → (0 ≤ pow (93 / 100) e ∧ pow (93 / 100) e ≤ 1) ∧
      (0 ≤ pow (84 / 100) e ∧ pow (84 / 100) e ≤ 1)) :
    ((animate pow s t nowPerf).mousePower
        = s.mousePower * pow (decay s nowPerf) (max (frameDt s.animate_t t * 60) 1) ∧
      0 ≤ (animate pow s t nowPerf).mousePower ∧
      (animate pow s t nowPerf).mousePower ≤ s.mousePower) ∧
      (∀ (ts nows : Nat → α) (n : Nat),
        0 ≤ (idleFrames pow s ts nows (n + 1)).mousePower ∧
        (idleFrames pow s ts nows (n + 1)).mousePower
          ≤ (idleFrames pow s ts nows n).mousePower) ∧
      (∀ v : α, s.mousePower ≤ (boost s v).mousePower ∧
        (v ≤ s.mousePower → (boost s v).mousePower = s.mousePower) ∧
        (boost s v).mousePower ≤ 1) := by
  refine ⟨⟨rfl, animate_mousePower_bounds pow s t nowPerf hp0 hpow⟩, ?_, ?_⟩
  · intro ts nows n
    have hnn : ∀ m : Nat, 0 ≤ (idleFrames pow s ts nows m).mousePower := by
      intro m
      induction m with
      | zero => exact hp0
      | succ m ih => exact (animate_mousePower_bounds pow _ _ _ ih hpow).1
    exact animate_mousePower_bounds pow _ _ _ (hnn n) hpow
  · intro v
    simp only [boost]
    refine ⟨le_min hp1 (le_max_left _ _), ?_, min_le_left _ _⟩
    intro hv
    rw [max_eq_left hv, min_eq_right hp1]

end BlobProofs

/-- The amended C8 on the reals with `Real.rpow` : after `pointerdown` (power 0.9), a frame
step 16 ms after the previous one leaves a power between 0 and 0.9. -/
theorem mousePower_never_increases_witness :
    (0 : ℝ) ≤ (pointerdown { (State.init : State ℝ) with animate_t := some 1000 }).mousePower ∧
      0 ≤ (animate Real.rpow
        (pointerdown { (State.init : State ℝ) with animate_t := some 1000 }) 1016 1016).mousePower ∧
      (animate Real.rpow
        (pointerdown { (State.init : State ℝ) with animate_t := some 1000 }) 1016 1016).mousePower
        ≤ (pointerdown { (State.init : State ℝ) with animate_t := some 1000 }).mousePower :=
  have hb : (pointerdown { (State.init : State ℝ) with animate_t := some 1000 }).mousePower
      = 9 / 10 := by
    simp only [pointerdown, boost, State.init]
    rw [max_eq_right (by norm_num), min_eq_right (by norm_num)]
  ⟨by rw [hb]; norm_num,
    (mousePower_never_increases Real.rpow
      (pointerdown { (State.init : State ℝ) with animate_t := some 1000 }) 1016 1016
      (by rw [hb]; norm_num) (by rw [hb]; norm_num)
      (fun e he =>
        ⟨⟨Real.rpow_nonneg (by norm_num) e,
            Real.rpow_le_one (by norm_num) (by norm_num) (by linarith)⟩,
          ⟨Real.rpow_nonneg (by norm_num) e,
            Real.rpow_le_one (by norm_num) (by norm_num) (by linarith)⟩⟩)).1.2⟩

/-- C8 fails as stated : in the state `blobPressed` (power 0.9, pointer not on the plane, so
the decay rate is 0.84) a frame step 72 s after the previous one (the page was in the
background; `dt` is not clamped in `app1.js`) has exponent 4320, the factor 0.84^4320 is
below the least positive double and `Math.pow` returns 0 : the new power is 0, not a value
`p'` with `0 < p'`. -/
theorem mousePower_underflows :
    blobPressed.mousePower = 9 / 10 ∧ blobPressed.animate_t = some 16 ∧
      decay blobPressed 72016 = 84 / 100 ∧
      frameDt blobPressed.animate_t 72016 = 72 ∧
      max (frameDt blobPressed.animate_t 72016 * 60) 1 = 4320 ∧
      (0 : ℚ) < (84 / 100) ^ 4320 ∧ (84 / 100 : ℚ) ^ 4320 ≤ 1 / 2 ^ 1075 ∧
      (animate powQ blobPressed 72016 72016).mousePower = 0 := by
  decide!

/-! ## C12 : the decay over split frames -/

theorem animateDt_mousePower_eq (s : State ℝ) (dt nowPerf : ℝ) :
    (animateDt Real.rpow s dt nowPerf).mousePower
      = s.mousePower * Real.rpow (decay s nowPerf) (max (dt * 60) 1) := rfl

theorem decay_animateDt (s : State ℝ) (dt nowPerf now2 : ℝ) :
    decay (animateDt Real.rpow s dt nowPerf) now2 = decay s now2 := rfl

/-- C12, as the code has it : the exponent of the decay is `max(dt·60, 1)`.  A frame step with
`dt·60 ≥ 1` multiplies the power by `Math.pow(decay, dt·60)`, an exponent proportional to the
frame duration; a frame step with `dt·60 ≤ 1` multiplies it by exactly the decay rate,
whatever its duration (`Math.pow(x, 1)` is `x`), so two consecutive such frames multiply the
power by the decay rate twice. -/
theorem decay_exponent_clamped {α : Type} [LinearOrderedField α] (pow : α → α → α)
    (s : State α) (t1 t2 now1 now2 : α)
    (hone : pow (93 / 100) 1 = 93 / 100 ∧ pow (84 / 100) 1 = 84 / 100) :
    (1 ≤ frameDt s.animate_t t1 * 60 →
        (animate pow s t1 now1).mousePower
          = s.mousePower * pow (decay s now1) (frameDt s.animate_t t1 * 60)) ∧
      (frameDt s.animate_t t1 * 60 ≤ 1 →
        (animate pow s t1 now1).mousePower = s.mousePower * decay s now1) ∧
      (frameDt s.animate_t t1 * 60 ≤ 1 → frameDt (some t1) t2 * 60 ≤ 1 →
        (animate pow (animate pow s t1 now1) t2 now2).mousePower
          = s.mousePower * decay s now1 * decay s now2) := by
  have hd : ∀ now : α, pow (decay s now) 1 = decay s now := by
    intro now
    unfold decay
    split_ifs
    · exact hone.1
    · exact hone.2
  refine ⟨?_, ?_, ?_⟩
  · intro h
    show s.mousePower * pow (decay s now1) (max (frameDt s.animate_t t1 * 60) 1) = _
    rw [max_eq_left h]
  · intro h
    show s.mousePower * pow (decay s now1) (max (frameDt s.animate_t t1 * 60) 1) = _
    rw [max_eq_right h, hd]
  · intro h1 h2
    show (s.mousePower * pow (decay s now1) (max (frameDt s.animate_t t1 * 60) 1))
      * pow (decay s now2) (max (frameDt (some t1) t2 * 60) 1) = _
    rw [max_eq_right h1, max_eq_right h2, hd, hd]

/-- C12 fails as stated : from the power 0.9 left by `pointerdown` (decay rate 0.84 in all
frames), two consecutive frames of 1/120 s yield 0.9 · 0.84² = 0.63504, one frame of
1/60 s yields 0.9 · 0.84 = 0.756 : below 1/60 s the exponent `max(dt*60, 1)` is 1 for every
frame. -/
theorem decay_two_short_frames :
    (pointerdown (State.init : State ℝ)).mousePower = 9 / 10 ∧
      decay (pointerdown (State.init : State ℝ)) 0 = 84 / 100 ∧
      decay (animateDt Real.rpow (pointerdown (State.init : State ℝ)) (1 / 120) 0) 0
        = 84 / 100 ∧
      (animateDt Real.rpow (animateDt Real.rpow (pointerdown State.init) (1 / 120) 0)
          (1 / 120) 0).mousePower = 63504 / 100000 ∧
      (animateDt Real.rpow (pointerdown State.init) (1 / 120 + 1 / 120) 0).mousePower
        = 756 / 1000 := by
  have hp : (pointerdown (State.init : State ℝ)).mousePower = 9 / 10 := by
    simp only [pointerdown, boost, State.init]
    rw [max_eq_right (by norm_num), min_eq_right (by norm_num)]
  have hd : decay (pointerdown (State.init : State ℝ)) 0 = 84 / 100 := by
    simp [decay, pointerdown, boost, State.init]
  have hm1 : max ((1 / 120 : ℝ) * 60) 1 = 1 := max_eq_right (by norm_num)
  have hm2 : max (((1 / 120 : ℝ) + 1 / 120) * 60) 1 = 1 := max_eq_right (by norm_num)
  have hone : ∀ x : ℝ, Real.rpow x 1 = x := fun x => Real.rpow_one x
  refine ⟨hp, hd, by rw [decay_animateDt, hd], ?_, ?_⟩
  · rw [animateDt_mousePower_eq, animateDt_mousePower_eq, decay_animateDt, hd, hp, hm1, hone]
    norm_num
  · rw [animateDt_mousePower_eq, hd, hp, hm2, hone]
    norm_num

/-- The amended C12 at the state `blobPressed` (power 0.9, decay rate 0.84, `animate._t` =
16) : two frames of 1/120 s (timestamps 16 + 25/3 and 16 + 50/3) multiply the power by 0.84
twice. -/
theorem decay_exponent_clamped_witness :
    frameDt blobPressed.animate_t (16 + 25 / 3) * 60 ≤ 1 ∧
      frameDt (some (16 + 25 / 3 : ℚ)) (16 + 50 / 3) * 60 ≤ 1 ∧
      (animate powQ (animate powQ blobPressed (16 + 25 / 3) 30) (16 + 50 / 3) 40).mousePower
        = blobPressed.mousePower * decay blobPressed 30 * decay blobPressed 40 :=
  ⟨by decide!, by decide!,
    (decay_exponent_clamped powQ blobPressed (16 + 25 / 3) (16 + 50 / 3) 30 40
      (by decide!)).2.2 (by decide!) (by decide!)⟩

end Blob

end Animation5m
